import Mathlib

/-!
Shallow embedding of the CnosDB cluster-metadata clients.

The embedding covers the `meta` package: the local client (`meta/client.go`,
type `Client`), and the remote client together with the store
(`RemoteClient` / `store`).  Times and durations are modelled as `Int`
nanoseconds (Go `time.Time` / `time.Duration`).  The `uint64` index counter
is modelled as `Nat` reduced modulo `2 ^ 64` where the source increments it.
The password-hashing primitives (`bcrypt`, salted SHA-256) are external
libraries and are modelled symbolically as injective constructors.
Functions whose bodies live in source files that are not part of the given
sources (notably `meta/data.go`) are modelled from the specification and
say so in their doc comments.
-/

namespace CnosMeta

/-- `time.Hour` in nanoseconds.  Throughout, Go `time.Time` and
`time.Duration` values are `Int` nanosecond counts. -/
def hourNs : Int := 3600000000000

/-- `ShardGroupDeletedExpiration = -2 * 7 * 24 * time.Hour` (client.go):
the (negative) offset added to `time.Now()` by `PruneShardGroups`. -/
def ShardGroupDeletedExpiration : Int := -2 * 7 * 24 * hourNs

/-- Modelled from the spec: `MinRetentionPolicyDuration` is declared in
`meta/data.go`, which is not among the given sources; the spec fixes it to
one hour. -/
def MinRetentionPolicyDuration : Int := hourNs

/-- `maxRetries` (remote client source): maximum number of attempts before
returning a failure to the caller. -/
def maxRetries : Nat := 10

/-- Modelled from the spec: `DefaultLeaseDuration` is declared in a source
file that is not among the given sources.  The claims are stated relative
to this constant, so its concrete value is immaterial; one minute is used. -/
def DefaultLeaseDuration : Int := 60 * 1000000000

/-- Symbolic model of a bcrypt digest (`golang.org/x/crypto/bcrypt`,
an external library): the digest of a password is represented by the
password itself wrapped in a constructor, so that digest comparison
accepts exactly the hashed password. -/
structure BHash where
  pwd : String
deriving Repr, DecidableEq

/-- Symbolic `bcrypt.GenerateFromPassword`. -/
def bcryptGenerate (password : String) : BHash := ⟨password⟩

/-- Symbolic `bcrypt.CompareHashAndPassword`, as a Bool (`true` = match). -/
def bcryptCompare (hash : BHash) (password : String) : Bool :=
  hash == ⟨password⟩

/-- Symbolic model of `SHA-256(salt ‖ password)` (the fast hash of the
auth cache); salts are drawn from `Nat`. -/
structure FastHash where
  salt : Nat
  pwd : String
deriving Repr, DecidableEq

/-- `hashWithSalt` (client.go / remote client): salted fast hash. -/
def hashWithSalt (salt : Nat) (password : String) : FastHash := ⟨salt, password⟩

/-- `UserInfo`: name, slow password digest, admin flag.  The privilege map
is not touched by any of the claims and is omitted. -/
structure UserInfo where
  name : String
  hash : BHash
  admin : Bool
deriving Repr, DecidableEq

/-- `authUser` (client.go): one auth-cache entry. -/
structure AuthUser where
  bhash : BHash
  salt : Nat
  fhash : FastHash
deriving Repr, DecidableEq

/-- `ShardGroupInfo`: id, half-open time range, deletion tombstone
(`DeletedAt`; `none` models the zero time).  Shards and `TruncatedAt` are
not touched by any claim and are omitted. -/
structure ShardGroupInfo where
  id : Nat
  startTime : Int
  endTime : Int
  deletedAt : Option Int
deriving Repr, DecidableEq

/-- `ShardGroupInfo.Deleted()`: a group is deleted when `DeletedAt` is set. -/
def ShardGroupInfo.deleted (g : ShardGroupInfo) : Bool := g.deletedAt.isSome

/-- Modelled from the spec: `ShardGroupInfo.Contains` (meta/data.go is not
among the given sources) — membership in the half-open range. -/
def ShardGroupInfo.containsTime (g : ShardGroupInfo) (t : Int) : Bool :=
  decide (g.startTime ≤ t ∧ t < g.endTime)

/-- `RetentionPolicyInfo`. Subscriptions are omitted (no claim touches
them). -/
structure RetentionPolicyInfo where
  name : String
  duration : Int
  replicaN : Nat
  shardGroupDuration : Int
  shardGroups : List ShardGroupInfo
deriving Repr, DecidableEq

/-- `DatabaseInfo`. Continuous queries are omitted (no claim touches
them). -/
structure DatabaseInfo where
  name : String
  defaultRetentionPolicy : String
  retentionPolicies : List RetentionPolicyInfo
deriving Repr, DecidableEq

/-- The root metadata document `Data`. `MaxNodeID`/`MaxShardID` and the
node tables are omitted (no claim touches them). -/
structure Data where
  clusterID : Nat
  index : Nat
  maxShardGroupID : Nat
  databases : List DatabaseInfo
  users : List UserInfo
deriving Repr, DecidableEq

/-- `Lease` (name, owner node id, expiration). -/
structure Lease where
  name : String
  owner : Nat
  expiration : Int
deriving Repr, DecidableEq

/-- The domain errors surfaced by the meta clients. -/
inductive MetaErr where
  | userNotFound
  | authenticate
  | userExists
  | databaseNotFound
  | retentionPolicyNotFound
  | retentionPolicyConflict
  | retentionPolicyDurationTooLow
  | shardGroupExists
  | shardGroupLookupFailed
  | nilPointerPanic
deriving Repr, DecidableEq

/-- Replace the first element satisfying `p` using `f` (Go's mutate-first-
match-by-name idiom). -/
def updateFirst (p : α → Bool) (f : α → α) : List α → List α
  | [] => []
  | x :: xs => if p x then f x :: xs else x :: updateFirst p f xs

/-- Remove the first element satisfying `p`. -/
def removeFirst (p : α → Bool) : List α → List α
  | [] => []
  | x :: xs => if p x then xs else x :: removeFirst p xs

/-- Modelled from the spec: `Data.Clone` (meta/data.go, not among the given
sources) deep-copies every slice and map; on the immutable values of this
embedding a deep copy is the identity. -/
def Data.Clone (d : Data) : Data := d

/-- `Data.Database(name)`: first database with the given name. -/
def Data.Database (d : Data) (name : String) : Option DatabaseInfo :=
  d.databases.find? (fun db => db.name == name)

/-- `Data.user(name)`: first user with the given name. -/
def Data.user (d : Data) (name : String) : Option UserInfo :=
  d.users.find? (fun u => u.name == name)

/-- `DatabaseInfo.RetentionPolicy(name)`. -/
def DatabaseInfo.RetentionPolicy (db : DatabaseInfo) (name : String) :
    Option RetentionPolicyInfo :=
  db.retentionPolicies.find? (fun rp => rp.name == name)

/-- Retention-policy lookup through the database table (the composition
`Data.Database` / `DatabaseInfo.RetentionPolicy` used by both clients). -/
def Data.rpLookup (d : Data) (database rpName : String) :
    Option RetentionPolicyInfo :=
  (d.Database database).bind (fun db => db.RetentionPolicy rpName)

/-- Modelled from the spec: `RetentionPolicyInfo.ShardGroupByTimestamp`
(meta/data.go, not among the given sources) — the first live group whose
half-open range contains the timestamp. -/
def RetentionPolicyInfo.shardGroupByTimestamp (rp : RetentionPolicyInfo)
    (t : Int) : Option ShardGroupInfo :=
  rp.shardGroups.find? (fun g => !g.deleted && g.containsTime t)

/-- `Data.ShardGroupByTimestamp(db, rp, t)`; the Go version also returns an
error for a missing database or policy, which every caller in the given
sources discards, so the model returns only the optional group. -/
def Data.ShardGroupByTimestamp (d : Data) (database rpName : String)
    (t : Int) : Option ShardGroupInfo :=
  (d.rpLookup database rpName).bind
    (fun rp => rp.shardGroupByTimestamp t)

/-- Go `time.Time.Truncate(d)` on nanosecond counts: round down to a
multiple of `d` (identity for non-positive `d`, as in Go). -/
def truncateTime (t : Int) (d : Int) : Int :=
  if 0 < d then t - t % d else t

/-- Modelled from the spec: the shard-group-duration table of invariant 6
(`shardGroupDuration(d)` in meta/data.go, not among the given sources):
`0 → 7d`, `≤ 2d → 1h`, `≤ 180d → 1d`, else `7d`. -/
def normalShardGroupDuration (dur : Int) : Int :=
  if dur == 0 then 7 * 24 * hourNs
  else if dur ≤ 2 * 24 * hourNs then hourNs
  else if dur ≤ 180 * 24 * hourNs then 24 * hourNs
  else 7 * 24 * hourNs

/-- `RetentionPolicySpec` (requested name/duration/replication/shard-group
duration; `none` models a nil pointer). -/
structure RetentionPolicySpec where
  name : String
  duration : Option Int
  replicaN : Option Nat
  shardGroupDuration : Option Int
deriving Repr, DecidableEq

/-- Modelled from the spec: `RetentionPolicySpec.NewRetentionPolicyInfo`
(meta/data.go, not among the given sources) — defaults: infinite duration,
replication 1, shard-group duration from the table when unspecified. -/
def RetentionPolicySpec.NewRetentionPolicyInfo (s : RetentionPolicySpec) :
    RetentionPolicyInfo :=
  let dur := s.duration.getD 0
  { name := s.name
    duration := dur
    replicaN := s.replicaN.getD 1
    shardGroupDuration := s.shardGroupDuration.getD (normalShardGroupDuration dur)
    shardGroups := [] }

/-- Modelled from the spec: `RetentionPolicySpec.Matches` (meta/data.go,
not among the given sources) — the spec's idempotency condition: the call
matches an existing policy exactly when every requested field agrees. -/
def RetentionPolicySpec.Matches (s : RetentionPolicySpec)
    (rpi : Option RetentionPolicyInfo) : Bool :=
  match rpi with
  | none => false
  | some rp =>
    (s.name == "" || s.name == rp.name)
      && (match s.duration with | none => true | some v => v == rp.duration)
      && (match s.replicaN with | none => true | some v => v == rp.replicaN)

/-- The `true`/`false` outcome of the duration floor check shared by the
retention-policy creation paths:
`spec.Duration != nil && *spec.Duration < MinRetentionPolicyDuration && *spec.Duration != 0`. -/
def durationTooLow (s : RetentionPolicySpec) : Bool :=
  match s.duration with
  | none => false
  | some v => decide (v < MinRetentionPolicyDuration) && !(v == 0)

/-- Modelled from the spec: `Data.CreateDatabase` (meta/data.go, not among
the given sources) — idempotent: succeed if present, else append a database
with no retention policies. -/
def Data.CreateDatabase (d : Data) (name : String) : Data :=
  match d.Database name with
  | some _ => d
  | none =>
    { d with databases := d.databases ++ [⟨name, "", []⟩] }

/-- Modelled from the spec: `Data.DropDatabase` (meta/data.go, not among the
given sources) — fails with not-found if absent, else removes it. -/
def Data.DropDatabase (d : Data) (name : String) : Except MetaErr Data :=
  match d.Database name with
  | none => .error .databaseNotFound
  | some _ =>
    .ok { d with databases := removeFirst (fun db => db.name == name) d.databases }

/-- Modelled from the spec: `Data.CreateRetentionPolicy` (meta/data.go, not
among the given sources) — fails name-conflict if the name exists with
different settings, succeeds idempotently on equal settings, else appends;
promotes to default iff `makeDefault`. -/
def Data.CreateRetentionPolicy (d : Data) (database : String)
    (rpi : RetentionPolicyInfo) (makeDefault : Bool) : Except MetaErr Data :=
  match d.Database database with
  | none => .error .databaseNotFound
  | some db =>
    match db.RetentionPolicy rpi.name with
    | some existing =>
      if existing.duration == rpi.duration && existing.replicaN == rpi.replicaN then
        let promote := fun (x : DatabaseInfo) => { x with defaultRetentionPolicy := rpi.name }
        let dbs := updateFirst (fun x => x.name == database) promote d.databases
        .ok (if makeDefault then { d with databases := dbs } else d)
      else .error .retentionPolicyConflict
    | none =>
      let add := fun (x : DatabaseInfo) =>
        { x with
          retentionPolicies := x.retentionPolicies ++ [rpi]
          defaultRetentionPolicy :=
            if makeDefault then rpi.name else x.defaultRetentionPolicy }
      .ok { d with databases := updateFirst (fun x => x.name == database) add d.databases }

/-- Modelled from the spec: `Data.CreateUser` (meta/data.go, not among the
given sources) — direct mutation, appending the user. -/
def Data.CreateUser (d : Data) (name : String) (hash : BHash) (admin : Bool) :
    Except MetaErr Data :=
  match d.user name with
  | some _ => .error .userExists
  | none => .ok { d with users := d.users ++ [⟨name, hash, admin⟩] }

/-- Modelled from the spec: `Data.UpdateUser` (meta/data.go, not among the
given sources) — replaces the stored digest, not-found if absent. -/
def Data.UpdateUser (d : Data) (name : String) (hash : BHash) :
    Except MetaErr Data :=
  match d.user name with
  | none => .error .userNotFound
  | some _ =>
    let setHash := fun (u : UserInfo) => { u with hash := hash }
    .ok { d with users := updateFirst (fun u => u.name == name) setHash d.users }

/-- Modelled from the spec: `Data.DropUser` (meta/data.go, not among the
given sources) — removes the user, not-found if absent. -/
def Data.DropUser (d : Data) (name : String) : Except MetaErr Data :=
  match d.user name with
  | none => .error .userNotFound
  | some _ =>
    .ok { d with users := removeFirst (fun u => u.name == name) d.users }

/-- Append a freshly allocated group to a retention policy. -/
def addShardGroupToRP (ng : ShardGroupInfo) (y : RetentionPolicyInfo) :
    RetentionPolicyInfo :=
  { y with shardGroups := y.shardGroups ++ [ng] }

/-- Append a freshly allocated group to the named policy of a database. -/
def addShardGroupToDB (rpName : String) (ng : ShardGroupInfo)
    (x : DatabaseInfo) : DatabaseInfo :=
  { x with
      retentionPolicies := updateFirst (fun y => y.name == rpName)
                             (addShardGroupToRP ng) x.retentionPolicies }

/-- The document after appending the freshly allocated group covering
`[s, e)` to the named retention policy (the success result of
`Data.CreateShardGroup`). -/
def createdShardGroupData (d : Data) (database rpName : String)
    (s e : Int) : Data :=
  { d with
      maxShardGroupID := d.maxShardGroupID + 1
      databases := updateFirst (fun x => x.name == database)
        (addShardGroupToDB rpName ⟨d.maxShardGroupID + 1, s, e, none⟩)
        d.databases }

/-- Modelled from the spec: `Data.CreateShardGroup` (meta/data.go, not
among the given sources) — allocates the `ShardGroupDuration`-aligned
bucket containing the timestamp with a fresh id, failing if any live group
overlaps the new bucket. -/
def Data.CreateShardGroup (d : Data) (database rpName : String) (t : Int) :
    Except MetaErr Data :=
  match d.Database database with
  | none => .error .databaseNotFound
  | some db =>
    match db.RetentionPolicy rpName with
    | none => .error .retentionPolicyNotFound
    | some rp =>
      if rp.shardGroups.any (fun g => !g.deleted &&
          decide (g.startTime <
              truncateTime t rp.shardGroupDuration + rp.shardGroupDuration ∧
            truncateTime t rp.shardGroupDuration < g.endTime)) then
        .error .shardGroupExists
      else
        .ok (createdShardGroupData d database rpName
          (truncateTime t rp.shardGroupDuration)
          (truncateTime t rp.shardGroupDuration + rp.shardGroupDuration))

/-! ## The local client (`Client`, meta/client.go) -/

/-- Auth-cache lookup (Go map read). -/
def cacheLookup (cache : List (String × AuthUser)) (name : String) :
    Option AuthUser :=
  (cache.find? (fun e => e.1 == name)).map (fun e => e.2)

/-- Auth-cache deletion (Go `delete`). -/
def cacheErase (name : String) (cache : List (String × AuthUser)) :
    List (String × AuthUser) :=
  cache.filter (fun e => !(e.1 == name))

/-- Auth-cache insertion/replacement (Go map write). -/
def cacheInsert (name : String) (au : AuthUser)
    (cache : List (String × AuthUser)) : List (String × AuthUser) :=
  (name, au) :: cacheErase name cache

/-- The state of a `Client` (meta/client.go).  The snapshot path, the
`closing`/`changed` channels and the logger are I/O plumbing with no effect
on the metadata state and are not modelled; `saltCtr` supplies the fresh
random salts drawn by `saltedHash`. -/
structure LocalClient where
  cacheData : Data
  authCache : List (String × AuthUser)
  saltCtr : Nat
  retentionPolicyAutoCreate : Bool
deriving Repr, DecidableEq

/-- `Client.commit`: bump the (uint64) index of the committed clone and swap
it in.  The atomic snapshot write and the `changed`-channel swap are I/O and
do not alter the metadata state. -/
def LocalClient.commit (c : LocalClient) (d : Data) : LocalClient :=
  { c with cacheData := { d with index := (d.index + 1) % 2 ^ 64 } }

/-- `Client.Data()`: a clone of the cached data. -/
def LocalClient.dataView (c : LocalClient) : Data := c.cacheData.Clone

/-- `Client.SetData`: commit a clone of the supplied data. -/
def LocalClient.setData (c : LocalClient) (d : Data) : LocalClient :=
  c.commit d.Clone

/-- `Client.AcquireLease`: always succeeds, with expiration
`now + DefaultLeaseDuration`; no state is read or written. -/
def LocalClient.acquireLease (_c : LocalClient) (now : Int) (name : String) :
    Except MetaErr Lease :=
  .ok { name := name, owner := 0, expiration := now + DefaultLeaseDuration }

/-- Modelled from the spec: `DefaultRetentionPolicyInfo` (meta/data.go, not
among the given sources) — the auto-created `"autogen"` policy: infinite
duration, replication 1. -/
def DefaultRetentionPolicyInfo : RetentionPolicyInfo :=
  { name := "autogen", duration := 0, replicaN := 1
    shardGroupDuration := normalShardGroupDuration 0, shardGroups := [] }

/-- The document produced by the mutating part of `Client.CreateDatabase`
on a clone of the cache: the new database plus, when auto-create is on,
the default `"autogen"` retention policy. -/
def LocalClient.createDatabaseData (c : LocalClient) (name : String) :
    Except MetaErr Data :=
  if c.retentionPolicyAutoCreate then
    (c.cacheData.Clone.CreateDatabase name).CreateRetentionPolicy name
      DefaultRetentionPolicyInfo true
  else .ok (c.cacheData.Clone.CreateDatabase name)

/-- `Client.CreateDatabase`: return the database if present, else create it
on a clone (plus the default retention policy when auto-create is on) and
commit. -/
def LocalClient.createDatabase (c : LocalClient) (name : String) :
    Except MetaErr (Option DatabaseInfo) × LocalClient :=
  match c.cacheData.Clone.Database name with
  | some db => (.ok (some db), c)
  | none =>
    match c.createDatabaseData name with
    | .error e => (.error e, c)
    | .ok d2 => (.ok (d2.Database name), c.commit d2)

/-- `Client.DropDatabase`. -/
def LocalClient.dropDatabase (c : LocalClient) (name : String) :
    Except MetaErr Unit × LocalClient :=
  match c.cacheData.Clone.DropDatabase name with
  | .error e => (.error e, c)
  | .ok d2 => (.ok (), c.commit d2)

/-- `Client.CreateRetentionPolicy`: duration floor check, then create on a
clone and commit. -/
def LocalClient.createRetentionPolicy (c : LocalClient) (database : String)
    (spec : RetentionPolicySpec) (makeDefault : Bool) :
    Except MetaErr RetentionPolicyInfo × LocalClient :=
  if durationTooLow spec then (.error .retentionPolicyDurationTooLow, c)
  else
    match c.cacheData.Clone.CreateRetentionPolicy database
        spec.NewRetentionPolicyInfo makeDefault with
    | .error e => (.error e, c)
    | .ok d2 => (.ok spec.NewRetentionPolicyInfo, c.commit d2)

/-- The default-policy step of `Client.CreateDatabaseWithRetentionPolicy`,
run against the ensured database `db` (`d1` is the clone after database
creation; note the Go `db` pointer is read before this step mutates
`d1`): create the policy as default when the database has none, otherwise
require the spec to match the existing policy of that name. -/
def LocalClient.cdwrpStep (name : String) (spec : RetentionPolicySpec)
    (db : DatabaseInfo) (d1 : Data) : Except MetaErr Data :=
  if db.retentionPolicies.isEmpty then
    d1.CreateRetentionPolicy name spec.NewRetentionPolicyInfo true
  else if !(spec.Matches (db.RetentionPolicy spec.name)) then
    .error .retentionPolicyConflict
  else .ok d1

/-- `Client.CreateDatabaseWithRetentionPolicy` (meta/client.go): duration
floor first, then ensure the database exists (`Data.CreateDatabase` is a
no-op when it does, so the branchless form is equivalent to the Go
`if db == nil` guard), run the default-policy step, and fail unless the
requested policy ended up as the database default.  `spec.name` equals the
`rpi.Name` of the Go code (`NewRetentionPolicyInfo` copies the name). -/
def LocalClient.createDatabaseWithRetentionPolicy (c : LocalClient)
    (name : String) (spec : RetentionPolicySpec) :
    Except MetaErr (Option DatabaseInfo) × LocalClient :=
  if durationTooLow spec then (.error .retentionPolicyDurationTooLow, c)
  else
    match (c.cacheData.Clone.CreateDatabase name).Database name with
    | none => (.error .databaseNotFound, c)
    | some db =>
      match LocalClient.cdwrpStep name spec db (c.cacheData.Clone.CreateDatabase name) with
      | .error e => (.error e, c)
      | .ok d2 =>
        if ((d2.Database name).map (fun x => x.defaultRetentionPolicy)).getD ""
            != spec.name then
          (.error .retentionPolicyConflict, c)
        else (.ok (d2.Database name), c.commit d2)

/-- `Client.CreateUser`: idempotent success on a matching existing user,
else hash the password and commit the new user. -/
def LocalClient.createUser (c : LocalClient) (name password : String)
    (admin : Bool) : Except MetaErr UserInfo × LocalClient :=
  match c.cacheData.Clone.user name with
  | some u =>
    if !(bcryptCompare u.hash password) || u.admin != admin then
      (.error .userExists, c)
    else (.ok u, c)
  | none =>
    match c.cacheData.Clone.CreateUser name (bcryptGenerate password) admin with
    | .error e => (.error e, c)
    | .ok d2 =>
      match d2.user name with
      | none => (.error .userNotFound, c)
      | some u => (.ok u, c.commit d2)

/-- `Client.UpdateUser`: replace the digest, evict the user's auth-cache
entry, commit. -/
def LocalClient.updateUser (c : LocalClient) (name password : String) :
    Except MetaErr Unit × LocalClient :=
  match c.cacheData.Clone.UpdateUser name (bcryptGenerate password) with
  | .error e => (.error e, c)
  | .ok d2 =>
    (.ok (), LocalClient.commit { c with authCache := cacheErase name c.authCache } d2)

/-- `Client.DropUser`: remove the user and commit.  The auth cache is not
touched. -/
def LocalClient.dropUser (c : LocalClient) (name : String) :
    Except MetaErr Unit × LocalClient :=
  match c.cacheData.Clone.DropUser name with
  | .error e => (.error e, c)
  | .ok d2 => (.ok (), c.commit d2)

/-- `Client.Authenticate`: user lookup, then fast-hash cache check, then
slow bcrypt verify (repopulating the cache with a fresh salt on success). -/
def LocalClient.authenticate (c : LocalClient) (username password : String) :
    Except MetaErr UserInfo × LocalClient :=
  match c.cacheData.user username with
  | none => (.error .userNotFound, c)
  | some userInfo =>
    let cacheHit :=
      match cacheLookup c.authCache username with
      | some au => hashWithSalt au.salt password == au.fhash
      | none => false
    if cacheHit then (.ok userInfo, c)
    else if !(bcryptCompare userInfo.hash password) then
      (.error .authenticate, c)
    else
      let salt := c.saltCtr
      let au : AuthUser :=
        { bhash := userInfo.hash, salt := salt
          fhash := hashWithSalt salt password }
      (.ok userInfo,
        { c with
          saltCtr := c.saltCtr + 1
          authCache := cacheInsert username au c.authCache })

/-- Keep-predicate of `Client.PruneShardGroups`:
`sgi.DeletedAt.IsZero() || !expiration.After(sgi.DeletedAt)`. -/
def keepShardGroup (expiration : Int) (g : ShardGroupInfo) : Bool :=
  match g.deletedAt with
  | none => true
  | some t => !(decide (t < expiration))

/-- The pruned document built by `Client.PruneShardGroups`: every retention
policy keeps exactly the groups satisfying `keepShardGroup`. -/
def Data.pruneShardGroupsData (expiration : Int) (d : Data) : Data :=
  let pruneRP := fun (rp : RetentionPolicyInfo) =>
    { rp with shardGroups := rp.shardGroups.filter (keepShardGroup expiration) }
  let pruneDB := fun (db : DatabaseInfo) =>
    { db with retentionPolicies := db.retentionPolicies.map pruneRP }
  { d with databases := d.databases.map pruneDB }

/-- The `changed` flag computed by `Client.PruneShardGroups`: some group
was removed. -/
def Data.hasExpiredShardGroup (expiration : Int) (d : Data) : Bool :=
  d.databases.any (fun db => db.retentionPolicies.any
    (fun rp => rp.shardGroups.any (fun g => !keepShardGroup expiration g)))

/-- `Client.PruneShardGroups`: drop expired tombstoned groups from a clone
and commit only when something changed. -/
def LocalClient.pruneShardGroups (c : LocalClient) (now : Int) : LocalClient :=
  if c.cacheData.Clone.hasExpiredShardGroup (now + ShardGroupDeletedExpiration) then
    c.commit (c.cacheData.Clone.pruneShardGroupsData (now + ShardGroupDeletedExpiration))
  else c

/-- `createShardGroup` (the package-level helper in meta/client.go):
guard against an existing group, create, then look the new group up.  The
Go helper returns a possibly-nil group pointer together with a nil error;
the model keeps that as an `Option`. -/
def createShardGroupHelper (d : Data) (database rpName : String) (t : Int) :
    Except MetaErr (Data × Option ShardGroupInfo) :=
  if (d.ShardGroupByTimestamp database rpName t).isSome then
    .error .shardGroupExists
  else
    match d.CreateShardGroup database rpName t with
    | .error e => .error e
    | .ok d2 =>
      match d2.rpLookup database rpName with
      | none => .error .shardGroupLookupFailed
      | some rp => .ok (d2, rp.shardGroupByTimestamp t)

/-- `Client.CreateShardGroup`: return the covering group if one exists,
else create one on a clone and commit. -/
def LocalClient.createShardGroup (c : LocalClient) (database rpName : String)
    (t : Int) : Except MetaErr (Option ShardGroupInfo) × LocalClient :=
  match c.cacheData.ShardGroupByTimestamp database rpName t with
  | some rg => (.ok (some rg), c)
  | none =>
    match c.cacheData.Clone.ShardGroupByTimestamp database rpName t with
    | some rg => (.ok (some rg), c)
    | none =>
      match createShardGroupHelper c.cacheData.Clone database rpName t with
      | .error e => (.error e, c)
      | .ok r => (.ok r.2, c.commit r.1)

/-! ## Shard-group precreation (`PrecreateShardGroups`, both clients) -/

/-- The FSM index advance per committed log entry ( uint64 ).  Modelled
from the spec: every committed entry advances `Index` by one on apply,
whether or not the command produced a mutation. -/
def Data.bumpIndex (d : Data) : Data :=
  { d with index := (d.index + 1) % 2 ^ 64 }

/-- One retention-policy step of `Client.PrecreateShardGroups`
(meta/client.go): inspect the last listed group; when it is live and its
`EndTime` lies strictly between the bounds, create the group covering
`EndTime + 1ns` unless one already exists; creation failures are logged
and skipped. -/
def precreateOneRP (lo hi : Int) (dbName : String) (rp : RetentionPolicyInfo)
    (d : Data) : Data × Bool :=
  match rp.shardGroups.getLast? with
  | none => (d, false)
  | some g =>
    if !g.deleted && decide (g.endTime < hi) && decide (lo < g.endTime) then
      if (d.ShardGroupByTimestamp dbName rp.name (g.endTime + 1)).isSome then
        (d, false)
      else
        match createShardGroupHelper d dbName rp.name (g.endTime + 1) with
        | .ok r => (r.1, true)
        | .error _ => (d, false)
    else (d, false)

/-- The inner (retention-policy) loop of `Client.PrecreateShardGroups`,
threading the mutated document and the `changed` flag.  Per Go `range`
semantics the loop iterates over the policy values read at loop entry. -/
def precreateDB (lo hi : Int) (dbName : String)
    (rps : List RetentionPolicyInfo) (acc : Data × Bool) : Data × Bool :=
  rps.foldl
    (fun a rp =>
      let r := precreateOneRP lo hi dbName rp a.1
      (r.1, a.2 || r.2)) acc

/-- The double loop of `Client.PrecreateShardGroups` over every database
and retention policy. -/
def Data.precreateAll (lo hi : Int) (d : Data) : Data × Bool :=
  d.databases.foldl
    (fun a db => precreateDB lo hi db.name db.retentionPolicies a) (d, false)

/-- `Client.PrecreateShardGroups(from, to)`: run the double loop on a clone
and commit only when a group was created. -/
def LocalClient.precreateShardGroups (c : LocalClient) (lo hi : Int) :
    LocalClient :=
  let r := c.cacheData.Clone.precreateAll lo hi
  if r.2 then c.commit r.1 else c

/-- Net cluster-state effect of `RemoteClient.CreateShardGroup`: idempotent
return when a covering group exists, otherwise the `CreateShardGroupCommand`
is applied by the store (one index advance per committed entry, domain
errors surfaced without mutation). -/
def remoteCreateShardGroupApply (d : Data) (database rpName : String)
    (t : Int) : Data :=
  if (d.ShardGroupByTimestamp database rpName t).isSome then d
  else
    match d.CreateShardGroup database rpName t with
    | .ok d2 => d2.bumpIndex
    | .error _ => d.bumpIndex

/-- One retention-policy step of `RemoteClient.PrecreateShardGroups`: same
latest-group condition as the local client, then `CreateShardGroup`
(errors are logged and skipped). -/
def remotePrecreateOneRP (lo hi : Int) (dbName : String)
    (rp : RetentionPolicyInfo) (d : Data) : Data :=
  match rp.shardGroups.getLast? with
  | none => d
  | some g =>
    if !g.deleted && decide (g.endTime < hi) && decide (lo < g.endTime) then
      remoteCreateShardGroupApply d dbName rp.name (g.endTime + 1)
    else d

/-- The inner (retention-policy) loop of
`RemoteClient.PrecreateShardGroups`. -/
def remotePrecreateDB (lo hi : Int) (dbName : String)
    (rps : List RetentionPolicyInfo) (d : Data) : Data :=
  rps.foldl (fun a rp => remotePrecreateOneRP lo hi dbName rp a) d

/-- `RemoteClient.PrecreateShardGroups(from, to)`: the body contains a
`return nil` at the end of the outer loop's first iteration, so only the
first database's retention policies are processed. -/
def remotePrecreateData (lo hi : Int) (d : Data) : Data :=
  match d.databases with
  | [] => d
  | db :: _ => remotePrecreateDB lo hi db.name db.retentionPolicies d

/-! ## The remote client's command submission (`retryUntilExec`) -/

/-- The wire outcome of one `exec` POST to `/execute`, as classified by
`RemoteClient.exec`: 200 with an index, 307 with a `Location`, another
HTTP status, a transport error, or a 200 carrying a command error. -/
inductive ExecResult where
  | ok (index : Nat)
  | redirect (location : String)
  | httpErr (status : Nat)
  | netErr
  | cmdErr (msg : String)
deriving Repr, DecidableEq

/-- The error values `exec` hands back to `retryUntilExec`
(`errRedirect`, the formatted status error, a transport error,
`errCommand`). -/
inductive ExecFailure where
  | redirectErr (location : String)
  | httpFailure (status : Nat)
  | netFailure
  | commandErr (msg : String)
deriving Repr, DecidableEq

/-- How a `retryUntilExec` run ends: a 200 response, a returned error, a
nil return taken on the `closing` branch, or no observed end (the supplied
response trace ran out). -/
inductive RetryOutcome where
  | success (index : Nat)
  | failure (e : ExecFailure)
  | closedReturn
  | hung
deriving Repr, DecidableEq

/-- Observable trace of a `retryUntilExec` run: the URL of every POST
issued, the number of `errSleep` back-off sleeps, and the outcome. -/
structure RetryTrace where
  sent : List String
  sleeps : Nat
  outcome : RetryOutcome
deriving Repr, DecidableEq

/-- URL construction of `retryUntilExec` for a meta server. -/
def mkExecUrl (tls : Bool) (server : String) : String :=
  (if tls then "https" else "http") ++ "://" ++ server ++ "/execute"

/-- The URL selected at the top of each `retryUntilExec` iteration: a
pinned redirect target verbatim, else the current meta server (with the
wrap-around reset of `currentServer`). -/
def pickUrl (redirect : Option String) (currentServer : Nat)
    (servers : List String) (tls : Bool) : String :=
  match redirect with
  | some h => h
  | none =>
    let i := if currentServer ≥ servers.length then 0 else currentServer
    mkExecUrl tls (servers.getD i "")

/-- The retry loop of `retryUntilExec`, driven by the trace of wire
outcomes of the successive `exec` calls.  `tries` is incremented after
every `exec`; a success returns immediately; once `tries` exceeds
`maxRetries` the last error is returned; a redirect pins the `Location`
and retries without sleeping; a command error returns immediately; other
errors sleep `errSleep` and retry on the next server. -/
def retryLoop (tries currentServer : Nat) (redirect : Option String)
    (servers : List String) (tls : Bool) :
    List ExecResult → RetryTrace
  | [] => { sent := [], sleeps := 0, outcome := .hung }
  | r :: rest =>
    let url := pickUrl redirect currentServer servers tls
    match r with
    | .ok i => { sent := [url], sleeps := 0, outcome := .success i }
    | .redirect h =>
      if tries + 1 > maxRetries then
        { sent := [url], sleeps := 0, outcome := .failure (.redirectErr h) }
      else
        let t := retryLoop (tries + 1) (currentServer + 1) (some h) servers tls rest
        { sent := url :: t.sent, sleeps := t.sleeps, outcome := t.outcome }
    | .cmdErr m =>
      { sent := [url], sleeps := 0, outcome := .failure (.commandErr m) }
    | .httpErr s =>
      if tries + 1 > maxRetries then
        { sent := [url], sleeps := 0, outcome := .failure (.httpFailure s) }
      else
        let t := retryLoop (tries + 1) (currentServer + 1) none servers tls rest
        { sent := url :: t.sent, sleeps := t.sleeps + 1, outcome := t.outcome }
    | .netErr =>
      if tries + 1 > maxRetries then
        { sent := [url], sleeps := 0, outcome := .failure .netFailure }
      else
        let t := retryLoop (tries + 1) (currentServer + 1) none servers tls rest
        { sent := url :: t.sent, sleeps := t.sleeps + 1, outcome := t.outcome }

/-- `retryUntilExec` up to (but not including) the `waitForIndex` call:
the `closing` check at the top of the loop returns nil before any POST
when the client is closed. -/
def retryUntilExecRun (closed : Bool) (servers : List String) (tls : Bool)
    (responses : List ExecResult) : RetryTrace :=
  if closed then { sent := [], sleeps := 0, outcome := .closedReturn }
  else retryLoop 0 0 none servers tls responses

/-- `RemoteClient.waitForIndex(idx)`, driven by the successive values of
`cacheData.Index` the loop observes (the current value followed by the
value after each `changed` wake-up): the first observation `≥ idx`, or
`none` when the trace ends before that (the call never returns). -/
def waitForIndex (idx : Nat) (observedIndexes : List Nat) : Option Nat :=
  observedIndexes.find? (fun c => decide (idx ≤ c))

/-- Result of a whole `retryUntilExec` call: the POSTs issued, the
returned value (`some none` = returned nil, `some (some e)` = returned the
error `e`, `none` = never returned), and the cache index observed when the
success path's `waitForIndex` completed. -/
structure RemoteCallRun where
  sent : List String
  result : Option (Option ExecFailure)
  finalCacheIndex : Option Nat
deriving Repr, DecidableEq

/-- A full `retryUntilExec` call: run the loop, then on success block in
`waitForIndex` until the cache catches up with the response index. -/
def retryUntilExecCall (closed : Bool) (servers : List String) (tls : Bool)
    (responses : List ExecResult) (observedIndexes : List Nat) :
    RemoteCallRun :=
  let t := retryUntilExecRun closed servers tls responses
  match t.outcome with
  | .closedReturn => { sent := t.sent, result := some none, finalCacheIndex := none }
  | .failure e => { sent := t.sent, result := some (some e), finalCacheIndex := none }
  | .hung => { sent := t.sent, result := none, finalCacheIndex := none }
  | .success i =>
    match waitForIndex i observedIndexes with
    | some cidx =>
      { sent := t.sent, result := some none, finalCacheIndex := some cidx }
    | none => { sent := t.sent, result := none, finalCacheIndex := none }

/-! ## Remote client operations -/

/-- The typed command payloads submitted through `retryUntilExec` (the
protobuf envelope's extension, kept abstractly; the payload does not
influence the retry loop's control flow). -/
inductive Command where
  | dropDatabase (name : String)
  | updateUser (name : String) (hash : BHash)
  | dropUser (name : String)
  | setPrivilege (username database : String) (privilege : Nat)
  | setAdminPrivilege (username : String) (admin : Bool)
  | setData (d : Data)
  | createUser (name : String) (hash : BHash) (admin : Bool)
deriving Repr, DecidableEq

/-- A remote mutating call that simply forwards `retryUntilExec`'s error:
the command built and the observable run. -/
structure RemoteOpRun where
  command : Command
  run : RemoteCallRun
deriving Repr, DecidableEq

/-- `RemoteClient.DropDatabase`: build the command and return
`retryUntilExec`'s result. -/
def remoteDropDatabase (closed : Bool) (servers : List String) (tls : Bool)
    (responses : List ExecResult) (observedIndexes : List Nat)
    (name : String) : RemoteOpRun :=
  { command := .dropDatabase name
    run := retryUntilExecCall closed servers tls responses observedIndexes }

/-- `RemoteClient.UpdateUser`: hash the password, build the command and
return `retryUntilExec`'s result. -/
def remoteUpdateUser (closed : Bool) (servers : List String) (tls : Bool)
    (responses : List ExecResult) (observedIndexes : List Nat)
    (name password : String) : RemoteOpRun :=
  { command := .updateUser name (bcryptGenerate password)
    run := retryUntilExecCall closed servers tls responses observedIndexes }

/-- `RemoteClient.DropUser`. -/
def remoteDropUser (closed : Bool) (servers : List String) (tls : Bool)
    (responses : List ExecResult) (observedIndexes : List Nat)
    (name : String) : RemoteOpRun :=
  { command := .dropUser name
    run := retryUntilExecCall closed servers tls responses observedIndexes }

/-- `RemoteClient.SetPrivilege`. -/
def remoteSetPrivilege (closed : Bool) (servers : List String) (tls : Bool)
    (responses : List ExecResult) (observedIndexes : List Nat)
    (username database : String) (privilege : Nat) : RemoteOpRun :=
  { command := .setPrivilege username database privilege
    run := retryUntilExecCall closed servers tls responses observedIndexes }

/-- `RemoteClient.SetAdminPrivilege`. -/
def remoteSetAdminPrivilege (closed : Bool) (servers : List String)
    (tls : Bool) (responses : List ExecResult) (observedIndexes : List Nat)
    (username : String) (admin : Bool) : RemoteOpRun :=
  { command := .setAdminPrivilege username admin
    run := retryUntilExecCall closed servers tls responses observedIndexes }

/-- `RemoteClient.SetData`. -/
def remoteSetData (closed : Bool) (servers : List String) (tls : Bool)
    (responses : List ExecResult) (observedIndexes : List Nat)
    (d : Data) : RemoteOpRun :=
  { command := .setData d
    run := retryUntilExecCall closed servers tls responses observedIndexes }

/-- `RemoteClient.CreateUser`: early idempotent return on a matching
cached user; otherwise submit the command and then read the user back from
the cache.  `cacheAtReturn` is the `cacheData` visible when the submission
returns (for a closed client nothing is sent, so it cannot have advanced
past `cache`).  The run is `none` when `retryUntilExec` was never invoked,
and the overall result is `none` when the call never returns. -/
def remoteCreateUser (closed : Bool) (servers : List String) (tls : Bool)
    (responses : List ExecResult) (observedIndexes : List Nat)
    (cache cacheAtReturn : Data) (name password : String) (admin : Bool) :
    Option (Except (ExecFailure ⊕ MetaErr) UserInfo) × Option RemoteCallRun :=
  let data := cache.Clone
  match data.user name with
  | some u =>
    if !(bcryptCompare u.hash password) || u.admin != admin then
      (some (.error (.inr .userExists)), none)
    else (some (.ok u), none)
  | none =>
    let r := retryUntilExecCall closed servers tls responses observedIndexes
    match r.result with
    | some (some e) => (some (.error (.inl e)), some r)
    | some none =>
      match cacheAtReturn.user name with
      | some u => (some (.ok u), some r)
      | none => (some (.error (.inr .userNotFound)), some r)
    | none => (none, some r)

/-- Modelled from the spec: the store-side handling of a
`CreateDatabaseCommand` carrying an optional retention policy (the FSM
lives in a source file not among the given sources): create the database
if absent, then create the carried policy as the default. -/
def applyCreateDatabaseCmd (d : Data) (name : String)
    (rp : Option RetentionPolicyInfo) : Except MetaErr Data :=
  let d1 := d.CreateDatabase name
  match rp with
  | none => .ok d1
  | some rpi => d1.CreateRetentionPolicy name rpi true

/-- `RemoteClient.CreateRetentionPolicy`, with a healthy cluster's command
round trip modelled as a direct apply (one index advance per committed
entry): an existing policy of the requested name is returned before any
check; only then is the duration floor enforced and the command sent. -/
def remoteCreateRetentionPolicy (d : Data) (database : String)
    (spec : RetentionPolicySpec) (makeDefault : Bool) :
    Except MetaErr (Option RetentionPolicyInfo) × Data :=
  match d.rpLookup database spec.name with
  | some rp => (.ok (some rp), d)
  | none =>
    if durationTooLow spec then (.error .retentionPolicyDurationTooLow, d)
    else
      match d.CreateRetentionPolicy database spec.NewRetentionPolicyInfo makeDefault with
      | .error e => (.error e, d.bumpIndex)
      | .ok d2 =>
        let d3 := d2.bumpIndex
        (.ok (d3.rpLookup database spec.name), d3)

/-- The early idempotency/conflict return of
`RemoteClient.CreateDatabaseWithRetentionPolicy`: when the database and a
policy of the requested name exist, compare against the dereferenced spec
fields (a nil field would panic, modelled as `nilPointerPanic`). -/
def remoteCdwrpEarly (d : Data) (name : String)
    (spec : RetentionPolicySpec) :
    Option (Except MetaErr (Option DatabaseInfo)) :=
  match d.Database name with
  | some db =>
    match db.RetentionPolicy spec.name with
    | some rp =>
      match spec.replicaN, spec.duration with
      | some rn, some du =>
        if rp.replicaN != rn || rp.duration != du then
          some (.error .retentionPolicyConflict)
        else some (.ok (some db))
      | _, _ => some (.error .nilPointerPanic)
    | none => none
  | none => none

/-- `RemoteClient.CreateDatabaseWithRetentionPolicy`, command round trip
modelled as a direct apply: the duration floor is checked before the
existing-policy comparison. -/
def remoteCreateDatabaseWithRP (d : Data) (name : String)
    (spec : RetentionPolicySpec) :
    Except MetaErr (Option DatabaseInfo) × Data :=
  if durationTooLow spec then (.error .retentionPolicyDurationTooLow, d)
  else
    match remoteCdwrpEarly d name spec with
    | some r => (r, d)
    | none =>
      match applyCreateDatabaseCmd d name (some spec.NewRetentionPolicyInfo) with
      | .error e => (.error e, d.bumpIndex)
      | .ok d2 => (.ok ((d2.bumpIndex).Database name), d2.bumpIndex)

/-! ## Helper lemmas -/

/-- `Data.CreateDatabase` does not touch the index. -/
theorem Data.CreateDatabase_index (d : Data) (name : String) :
    (d.CreateDatabase name).index = d.index := by
  unfold Data.CreateDatabase
  split <;> rfl

/-- `Data.CreateRetentionPolicy` does not touch the index. -/
theorem Data.CreateRetentionPolicy_index {d : Data} {database : String}
    {rpi : RetentionPolicyInfo} {makeDefault : Bool} {d2 : Data}
    (h : d.CreateRetentionPolicy database rpi makeDefault = .ok d2) :
    d2.index = d.index := by
  unfold Data.CreateRetentionPolicy at h
  split at h
  · exact Except.noConfusion h
  · split at h
    · split at h
      · injection h with h
        subst h
        split <;> rfl
      · exact Except.noConfusion h
    · injection h with h
      subst h
      rfl

/-- `Data.CreateUser` does not touch the index. -/
theorem Data.CreateUser_index {d : Data} {name : String} {hash : BHash}
    {admin : Bool} {d2 : Data} (h : d.CreateUser name hash admin = .ok d2) :
    d2.index = d.index := by
  unfold Data.CreateUser at h
  split at h
  · exact Except.noConfusion h
  · injection h with h
    subst h
    rfl

/-- `Data.DropDatabase` does not touch the index. -/
theorem Data.DropDatabase_index {d : Data} {name : String} {d2 : Data}
    (h : d.DropDatabase name = .ok d2) : d2.index = d.index := by
  unfold Data.DropDatabase at h
  split at h
  · exact Except.noConfusion h
  · injection h with h
    subst h
    rfl

/-- `Data.CreateShardGroup` does not touch the index. -/
theorem Data.CreateShardGroup_index {d : Data} {database rpName : String}
    {t : Int} {d2 : Data} (h : d.CreateShardGroup database rpName t = .ok d2) :
    d2.index = d.index := by
  unfold Data.CreateShardGroup at h
  split at h
  · exact Except.noConfusion h
  · split at h
    · exact Except.noConfusion h
    · split at h
      · exact Except.noConfusion h
      · injection h with h
        subst h
        rfl

/-- `createShardGroupHelper` does not touch the index. -/
theorem createShardGroupHelper_index {d : Data} {database rpName : String}
    {t : Int} {r : Data × Option ShardGroupInfo}
    (h : createShardGroupHelper d database rpName t = .ok r) :
    r.1.index = d.index := by
  unfold createShardGroupHelper at h
  split at h
  · exact Except.noConfusion h
  · revert h
    split
    · intro h
      exact Except.noConfusion h
    · rename_i d2 heq
      split
      · intro h
        exact Except.noConfusion h
      · intro h
        injection h with h
        subst h
        exact Data.CreateShardGroup_index heq

/-! ## C10 — `Client.AcquireLease` -/

/-- C10: `Client.AcquireLease` never fails: for every client state, current
time and lease name it returns a lease bearing that name with expiration
`DefaultLeaseDuration` past now, independent of any other state (no
exclusivity check). -/
theorem c10_acquireLease_always_succeeds (c : LocalClient) (now : Int)
    (name : String) :
    c.acquireLease now name =
      .ok { name := name, owner := 0, expiration := now + DefaultLeaseDuration } :=
  rfl

/-! ## C8 — `SetData` / `Data()` round trip -/

/-- C8 (amended): `SetData (Clone D)` followed by `Data()` yields a value
deep-equal to `D` except that the index is advanced by one modulo `2^64`
(the index is a Go `uint64` and `commit`'s increment wraps). -/
theorem c8_setData_roundtrip (c : LocalClient) (d : Data) :
    (c.setData d.Clone).dataView = { d with index := (d.index + 1) % 2 ^ 64 } :=
  rfl

/-- C8 counterexample: at `Index = 2^64 - 1` the committed index wraps to
`0`, so the round-tripped value is not `D` with the index advanced by
one. -/
theorem c8_counterexample :
    ((⟨⟨1, 2 ^ 64 - 1, 0, [], []⟩, [], 0, false⟩ : LocalClient).setData
        (⟨1, 2 ^ 64 - 1, 0, [], []⟩ : Data).Clone).dataView ≠
      { (⟨1, 2 ^ 64 - 1, 0, [], []⟩ : Data) with index := (2 ^ 64 - 1) + 1 } := by
  decide

/-! ## C7 — `PruneShardGroups` -/

/-- The spec-side retention predicate of C7: a group is retained exactly
when it is live or was deleted at most 14 days before now. -/
def specRetainShardGroup (now : Int) (g : ShardGroupInfo) : Bool :=
  match g.deletedAt with
  | none => true
  | some t => decide (now - t ≤ 2 * 7 * 24 * hourNs)

/-- The code-side keep predicate agrees with the spec-side one. -/
theorem keepShardGroup_eq_specRetain (now : Int) (g : ShardGroupInfo) :
    keepShardGroup (now + ShardGroupDeletedExpiration) g =
      specRetainShardGroup now g := by
  unfold keepShardGroup specRetainShardGroup
  cases g.deletedAt with
  | none => rfl
  | some t =>
    dsimp only
    have e1 : ShardGroupDeletedExpiration = -1209600000000000 := by
      norm_num [ShardGroupDeletedExpiration, hourNs]
    have e2 : 2 * 7 * 24 * hourNs = 1209600000000000 := by
      norm_num [hourNs]
    by_cases hq : now - t ≤ 2 * 7 * 24 * hourNs
    · have hp : ¬ (t < now + ShardGroupDeletedExpiration) := by
        rw [e1]
        rw [e2] at hq
        omega
      simp [hp]
      simpa using hq
    · have hp : t < now + ShardGroupDeletedExpiration := by
        rw [e1]
        rw [e2] at hq
        omega
      simp [hp]
      simpa using hq

/-- C7: `PruneShardGroups` at time `now` keeps, in every retention policy
of every database and in their original order, exactly the shard groups
that are live or were deleted at most 14 days before `now`; everything
else about the databases is unchanged. -/
theorem c7_prune_exact (c : LocalClient) (now : Int) :
    (c.pruneShardGroups now).cacheData.databases =
      c.cacheData.databases.map (fun db =>
        { db with retentionPolicies := db.retentionPolicies.map (fun rp =>
            { rp with shardGroups :=
                rp.shardGroups.filter (specRetainShardGroup now) }) }) := by
  have hkeep : keepShardGroup (now + ShardGroupDeletedExpiration) =
      specRetainShardGroup now :=
    funext (keepShardGroup_eq_specRetain now)
  unfold LocalClient.pruneShardGroups
  split
  · unfold LocalClient.commit Data.pruneShardGroupsData Data.Clone
    dsimp only
    simp only [hkeep]
  · rename_i h
    unfold Data.hasExpiredShardGroup Data.Clone at h
    simp only [List.any_eq_true, Bool.not_eq_true, not_exists, not_and,
      Bool.not_eq_false] at h
    symm
    have hmap : ∀ db ∈ c.cacheData.databases,
        { db with retentionPolicies := db.retentionPolicies.map (fun rp =>
            { rp with shardGroups :=
                rp.shardGroups.filter (specRetainShardGroup now) }) } = db := by
      intro db hdb
      have hrps : ∀ rp ∈ db.retentionPolicies,
          { rp with shardGroups :=
              rp.shardGroups.filter (specRetainShardGroup now) } = rp := by
        intro rp hrp
        have hfil : rp.shardGroups.filter (specRetainShardGroup now) =
            rp.shardGroups := by
          refine List.filter_eq_self.mpr (fun g hg => ?_)
          rw [← hkeep]
          simpa using h db hdb rp hrp g hg
        rw [hfil]
      rw [List.map_congr_left hrps]
      simp
    rw [List.map_congr_left hmap]
    simp

/-! ## C2 — authentication equivalence and cache eviction -/

/-- A fresh local client over an empty document (fixture). -/
def freshClient : LocalClient :=
  { cacheData := { clusterID := 1, index := 1, maxShardGroupID := 0, databases := [], users := [] }
    authCache := []
    saltCtr := 0
    retentionPolicyAutoCreate := false }

/-- The client after `CreateUser("u","p1")`, `Authenticate("u","p1")`
(which populates the auth cache), `DropUser("u")` (which does not evict)
and `CreateUser("u","p2")` (fixture for the C2 claim). -/
def staleCacheClient : LocalClient :=
  ((((freshClient.createUser "u" "p1" false).2.authenticate "u" "p1").2.dropUser
      "u").2.createUser "u" "p2" false).2

/-- C2: after dropping `"u"` and re-creating it with password `"p2"`,
`Authenticate("u","p1")` still succeeds through the stale cache entry that
`DropUser` failed to evict, although the stored digest is the bcrypt hash
of `"p2"` and the slow verification of `"p1"` against it fails. -/
theorem c2_dropUser_stale_cache_accepts :
    (staleCacheClient.authenticate "u" "p1").1 =
        .ok { name := "u", hash := bcryptGenerate "p2", admin := false }
      ∧ staleCacheClient.cacheData.user "u" =
        some { name := "u", hash := bcryptGenerate "p2", admin := false }
      ∧ bcryptCompare (bcryptGenerate "p2") "p1" = false := by
  refine ⟨?_, ?_, ?_⟩ <;> rfl

/-! ## C1 — index advance of local mutating operations -/

/-- Fixture: a client whose document already holds database `"x"` at
index 5. -/
def idemClient : LocalClient :=
  { cacheData :=
      { clusterID := 1, index := 5, maxShardGroupID := 0
        databases := [{ name := "x", defaultRetentionPolicy := "", retentionPolicies := [] }]
        users := [] }
    authCache := []
    saltCtr := 0
    retentionPolicyAutoCreate := false }

/-- C1 counterexample: `CreateDatabase("x")` on a client that already holds
`"x"` returns without error yet leaves the index unchanged (the idempotent
early return skips `commit`). -/
theorem c1_counterexample :
    (idemClient.createDatabase "x").1 =
        .ok (some { name := "x", defaultRetentionPolicy := "", retentionPolicies := [] })
      ∧ (idemClient.createDatabase "x").2.cacheData.index
        = idemClient.cacheData.index := by
  exact ⟨rfl, rfl⟩

/-- Whether an `Except` result carries a value. -/
def exceptOk : Except ε α → Bool
  | .ok _ => true
  | .error _ => false

/-- C1 (amended): every mutating local-client operation that reaches
`commit` sets the index to one more than the index of the document it
commits (so one more than the prior cache index, except for `SetData`,
which commits the supplied document); the idempotent early-return paths of
`CreateDatabase`, `CreateUser`, `CreateShardGroup` and `PruneShardGroups`
return success with the client unchanged. -/
theorem c1_index_advance (c : LocalClient)
    (hov : c.cacheData.index + 1 < 2 ^ 64) :
    (∀ name r, c.createDatabase name = r → exceptOk r.1 = true →
        r.2.cacheData.index = c.cacheData.index + 1 ∨
          (r.2 = c ∧ (c.cacheData.Database name).isSome)) ∧
    (∀ name r, c.dropDatabase name = r → exceptOk r.1 = true →
        r.2.cacheData.index = c.cacheData.index + 1) ∧
    (∀ database spec makeDefault r,
        c.createRetentionPolicy database spec makeDefault = r →
        exceptOk r.1 = true →
        r.2.cacheData.index = c.cacheData.index + 1) ∧
    (∀ name password admin r, c.createUser name password admin = r →
        exceptOk r.1 = true →
        r.2.cacheData.index = c.cacheData.index + 1 ∨
          (r.2 = c ∧ (c.cacheData.user name).isSome)) ∧
    (∀ database rpName t r, c.createShardGroup database rpName t = r →
        exceptOk r.1 = true →
        r.2.cacheData.index = c.cacheData.index + 1 ∨ r.2 = c) ∧
    (∀ now, (c.pruneShardGroups now).cacheData.index = c.cacheData.index + 1 ∨
        c.pruneShardGroups now = c) ∧
    (∀ d, d.index + 1 < 2 ^ 64 →
        (c.setData d).cacheData.index = d.index + 1) := by
  have hmod : (c.cacheData.index + 1) % 2 ^ 64 = c.cacheData.index + 1 :=
    Nat.mod_eq_of_lt hov
  have hcommit : ∀ d2 : Data, d2.index = c.cacheData.index →
      (c.commit d2).cacheData.index = c.cacheData.index + 1 := by
    intro d2 hidx
    unfold LocalClient.commit
    show (d2.index + 1) % 2 ^ 64 = c.cacheData.index + 1
    rw [hidx]
    exact hmod
  refine ⟨?_, ?_, ?_, ?_, ?_, ?_, ?_⟩
  · intro name r hr _hok
    unfold LocalClient.createDatabase Data.Clone at hr
    revert hr
    split
    · rename_i db hdb
      intro hr
      refine .inr ⟨by rw [← hr], by rw [hdb]; rfl⟩
    · rename_i hdb
      split
      · intro hr
        rw [← hr] at _hok
        exact absurd _hok (by simp [exceptOk])
      · rename_i d2 hstep
        intro hr
        left
        rw [← hr]
        refine hcommit d2 ?_
        unfold LocalClient.createDatabaseData Data.Clone at hstep
        revert hstep
        split
        · intro hstep
          exact (Data.CreateRetentionPolicy_index hstep).trans
            (Data.CreateDatabase_index _ _)
        · intro hstep
          injection hstep with hstep
          rw [← hstep]
          exact Data.CreateDatabase_index _ _
  · intro name r hr hok
    unfold LocalClient.dropDatabase Data.Clone at hr
    revert hr
    split
    · intro hr
      rw [← hr] at hok
      exact absurd hok (by simp [exceptOk])
    · rename_i d2 hstep
      intro hr
      rw [← hr]
      exact hcommit d2 (Data.DropDatabase_index hstep)
  · intro database spec makeDefault r hr hok
    unfold LocalClient.createRetentionPolicy Data.Clone at hr
    revert hr
    split
    · intro hr
      rw [← hr] at hok
      exact absurd hok (by simp [exceptOk])
    · split
      · intro hr
        rw [← hr] at hok
        exact absurd hok (by simp [exceptOk])
      · rename_i d2 hstep
        intro hr
        rw [← hr]
        exact hcommit d2 (Data.CreateRetentionPolicy_index hstep)
  · intro name password admin r hr hok
    unfold LocalClient.createUser Data.Clone at hr
    revert hr
    split
    · rename_i u hu
      split
      · intro hr
        rw [← hr] at hok
        exact absurd hok (by simp [exceptOk])
      · intro hr
        refine .inr ⟨by rw [← hr], by rw [hu]; rfl⟩
    · rename_i hu
      split
      · intro hr
        rw [← hr] at hok
        exact absurd hok (by simp [exceptOk])
      · rename_i d2 hstep
        split
        · intro hr
          rw [← hr] at hok
          exact absurd hok (by simp [exceptOk])
        · intro hr
          left
          rw [← hr]
          exact hcommit d2 (Data.CreateUser_index hstep)
  · intro database rpName t r hr hok
    unfold LocalClient.createShardGroup Data.Clone at hr
    revert hr
    split
    · intro hr
      exact .inr (by rw [← hr])
    · split
      · intro hr
        exact .inr (by rw [← hr])
      · split
        · intro hr
          rw [← hr] at hok
          exact absurd hok (by simp [exceptOk])
        · rename_i res hstep
          intro hr
          left
          rw [← hr]
          exact hcommit res.1 (createShardGroupHelper_index hstep)
  · intro now
    unfold LocalClient.pruneShardGroups
    split
    · left
      refine hcommit _ ?_
      rfl
    · right
      rfl
  · intro d hd
    unfold LocalClient.setData LocalClient.commit Data.Clone
    exact Nat.mod_eq_of_lt hd

/-- Witness for C1: the amended statement applied to the fixture client at
index 5 — `SetData` of a document at index 41 commits index 42. -/
theorem c1_index_advance_witness :
    (idemClient.setData
        { clusterID := 1, index := 41, maxShardGroupID := 0, databases := [], users := [] }).cacheData.index
      = 42 := by
  have h := c1_index_advance idemClient (by decide)
  exact h.2.2.2.2.2.2 _ (by decide)

/-! ## C9 — mutating remote operations after `Close` -/

/-- C9 (amended, part 1): after `Close`, every remote mutating operation
that returns `retryUntilExec`'s error directly returns nil — without any
POST being issued and without sleeping. -/
theorem c9_closed_ops_return_nil (servers : List String) (tls : Bool)
    (responses : List ExecResult) (observedIndexes : List Nat)
    (name password username database : String) (privilege : Nat)
    (admin : Bool) (d : Data) :
    (remoteDropDatabase true servers tls responses observedIndexes name).run
        = { sent := [], result := some none, finalCacheIndex := none } ∧
    (remoteUpdateUser true servers tls responses observedIndexes name password).run
        = { sent := [], result := some none, finalCacheIndex := none } ∧
    (remoteDropUser true servers tls responses observedIndexes name).run
        = { sent := [], result := some none, finalCacheIndex := none } ∧
    (remoteSetPrivilege true servers tls responses observedIndexes username database privilege).run
        = { sent := [], result := some none, finalCacheIndex := none } ∧
    (remoteSetAdminPrivilege true servers tls responses observedIndexes username admin).run
        = { sent := [], result := some none, finalCacheIndex := none } ∧
    (remoteSetData true servers tls responses observedIndexes d).run
        = { sent := [], result := some none, finalCacheIndex := none } := by
  exact ⟨rfl, rfl, rfl, rfl, rfl, rfl⟩

/-- Fixture: an empty metadata document. -/
def emptyDoc : Data :=
  { clusterID := 1, index := 1, maxShardGroupID := 0, databases := [], users := [] }

/-- C9 counterexample: `CreateUser` on a closed remote client sends
nothing, but it does not return nil — the post-submission cache lookup
fails and `ErrUserNotFound` is surfaced (the cache cannot have advanced,
since no command was sent). -/
theorem c9_counterexample :
    (remoteCreateUser true ["s"] false [] [] emptyDoc emptyDoc "u" "p" false).1
        = some (.error (.inr .userNotFound)) ∧
    (remoteCreateUser true ["s"] false [] [] emptyDoc emptyDoc "u" "p" false).2
        = some { sent := [], result := some none, finalCacheIndex := none } := by
  exact ⟨rfl, rfl⟩

/-! ## C3 — redirect handling in `retryUntilExec` -/

/-- Trace of a run whose wire outcomes are `n` redirects to `loc` followed
by a success: every attempt increments `tries`, so the run succeeds only
while the total count stays within `maxRetries`, each redirected attempt
POSTs to `loc`, and no back-off sleep occurs. -/
theorem retryLoop_redirect_trace (loc : String) (i : Nat)
    (servers : List String) (tls : Bool) :
    ∀ (n tries cs : Nat) (red : Option String),
      (tries + n ≤ maxRetries →
        retryLoop tries cs red servers tls
            (List.replicate n (.redirect loc) ++ [.ok i]) =
          { sent := pickUrl red cs servers tls :: List.replicate n loc
            sleeps := 0, outcome := .success i }) ∧
      (maxRetries < tries + n → 1 ≤ n →
        (retryLoop tries cs red servers tls
            (List.replicate n (.redirect loc) ++ [.ok i])).outcome =
            .failure (.redirectErr loc) ∧
        (retryLoop tries cs red servers tls
            (List.replicate n (.redirect loc) ++ [.ok i])).sleeps = 0) := by
  intro n
  induction n with
  | zero =>
    intro tries cs red
    refine ⟨fun _ => rfl, fun _ h1 => absurd h1 (by omega)⟩
  | succ n ih =>
    intro tries cs red
    rw [List.replicate_succ, List.cons_append]
    constructor
    · intro hle
      unfold retryLoop
      dsimp only
      have hnot : ¬ (tries + 1 > maxRetries) := by omega
      rw [if_neg hnot, (ih (tries + 1) (cs + 1) (some loc)).1 (by omega),
        List.replicate_succ]
      rfl
    · intro hgt _
      unfold retryLoop
      dsimp only
      by_cases hc : tries + 1 > maxRetries
      · rw [if_pos hc]
        exact ⟨rfl, rfl⟩
      · rw [if_neg hc]
        have hn : 1 ≤ n := by omega
        have h2 := (ih (tries + 1) (cs + 1) (some loc)).2 (by omega) hn
        exact ⟨h2.1, h2.2⟩

/-- C3 (amended): on a 307 the next attempt is sent verbatim to the
`Location` target and no back-off sleep occurs, but the redirected attempt
still increments the attempt counter: a run of `n` redirects followed by a
would-be success succeeds exactly when `n ≤ maxRetries`, and otherwise
surfaces the redirect error. -/
theorem c3_redirect_attempts (n : Nat) (loc : String) (i : Nat)
    (servers : List String) (tls : Bool) (_hs : servers ≠ []) :
    ((retryLoop 0 0 none servers tls
        (List.replicate n (.redirect loc) ++ [.ok i])).outcome = .success i
      ↔ n ≤ maxRetries) ∧
    (retryLoop 0 0 none servers tls
        (List.replicate n (.redirect loc) ++ [.ok i])).sleeps = 0 ∧
    (n ≤ maxRetries →
      (retryLoop 0 0 none servers tls
          (List.replicate n (.redirect loc) ++ [.ok i])).sent =
        mkExecUrl tls (servers.getD 0 "") :: List.replicate n loc) := by
  have hpick : pickUrl none 0 servers tls = mkExecUrl tls (servers.getD 0 "") := by
    unfold pickUrl
    dsimp only
    rw [ite_self]
  have h := retryLoop_redirect_trace loc i servers tls n 0 0 none
  by_cases hle : n ≤ maxRetries
  · have h1 := h.1 (by omega)
    rw [h1, hpick]
    refine ⟨⟨fun _ => hle, fun _ => rfl⟩, rfl, fun _ => rfl⟩
  · have hn1 : 1 ≤ n := by unfold maxRetries at hle; omega
    have h2 := h.2 (by omega) hn1
    refine ⟨⟨fun hsu => ?_, fun hle2 => absurd hle2 hle⟩, h2.2,
      fun hle2 => absurd hle2 hle⟩
    rw [h2.1] at hsu
    exact RetryOutcome.noConfusion hsu

/-- Witness for C3 (amended): two redirects then a success — both
redirected attempts go to the `Location` host and the call succeeds. -/
theorem c3_redirect_attempts_witness :
    (retryLoop 0 0 none ["s"] false
        (List.replicate 2 (.redirect "h") ++ [.ok 7])).sent =
      mkExecUrl false "s" :: List.replicate 2 "h" := by
  have h := c3_redirect_attempts 2 "h" 7 ["s"] false (by simp)
  exact h.2.2 (by decide)

/-- C3 counterexample: eleven consecutive 307 responses exhaust the
attempt limit — the run fails with the redirect error even though not a
single network or 5xx failure occurred, so redirected retries do count
against `maxRetries`. -/
theorem c3_counterexample :
    (retryLoop 0 0 none ["s"] false
        (List.replicate 11 (.redirect "h") ++ [.ok 7])).outcome =
      .failure (.redirectErr "h") ∧
    (List.replicate 11 (ExecResult.redirect "h") ++ [ExecResult.ok 7]).countP
        (fun r => match r with
          | .netErr => true
          | .httpErr _ => true
          | _ => false) = 0 := by
  exact ⟨rfl, rfl⟩

/-! ## C4 — read-your-writes after a successful `retryUntilExec` -/

/-- C4: whenever `retryUntilExec` returns nil after a successful command
response with index `i`, the cache index observed when `waitForIndex`
completed is at least `i` (the nil return on the success path happens only
after the cache caught up with the response index). -/
theorem c4_read_your_writes (closed : Bool) (servers : List String)
    (tls : Bool) (responses : List ExecResult) (observedIndexes : List Nat)
    (i cidx : Nat)
    (hsucc : (retryUntilExecRun closed servers tls responses).outcome =
      .success i)
    (hfin : (retryUntilExecCall closed servers tls responses
        observedIndexes).finalCacheIndex = some cidx) :
    i ≤ cidx ∧
      (retryUntilExecCall closed servers tls responses
          observedIndexes).result = some none := by
  unfold retryUntilExecCall at hfin ⊢
  dsimp only at hfin ⊢
  rw [hsucc] at hfin ⊢
  dsimp only at hfin ⊢
  cases hw : waitForIndex i observedIndexes with
  | none =>
    rw [hw] at hfin
    dsimp only at hfin
    exact absurd hfin (by simp)
  | some cobs =>
    rw [hw] at hfin
    dsimp only at hfin
    have hcc : cobs = cidx := by
      injection hfin with hfin
    subst hcc
    have hw2 : observedIndexes.find? (fun c => decide (i ≤ c)) = some cobs := hw
    have hp := @List.find?_some _ (fun c => decide (i ≤ c)) cobs observedIndexes hw2
    exact ⟨of_decide_eq_true hp, rfl⟩

/-- Witness for C4: a single successful response with index 5 against a
cache whose first observed index is 7. -/
theorem c4_read_your_writes_witness :
    5 ≤ 7 ∧
      (retryUntilExecCall false ["s"] false [.ok 5] [7]).result = some none :=
  c4_read_your_writes false ["s"] false [.ok 5] [7] 5 7 rfl rfl

/-! ## C6 — the retention-policy duration floor -/

/-- `durationTooLow` in spec terms: some requested duration is non-zero
and under one hour. -/
theorem durationTooLow_iff (s : RetentionPolicySpec) :
    durationTooLow s = true ↔
      ∃ v, s.duration = some v ∧ v ≠ 0 ∧ v < MinRetentionPolicyDuration := by
  unfold durationTooLow
  cases hd : s.duration with
  | none => simp
  | some v =>
    simp only [hd, Bool.and_eq_true, decide_eq_true_eq, Bool.not_eq_true',
      beq_eq_false_iff_ne, ne_eq, Option.some.injEq]
    constructor
    · rintro ⟨h1, h2⟩
      exact ⟨v, rfl, h2, h1⟩
    · rintro ⟨w, hw, h2, h1⟩
      cases hw
      exact ⟨h1, h2⟩

/-- The modelled `Data.CreateRetentionPolicy` never reports the duration
floor error (the floor is enforced by the clients). -/
theorem Data.CreateRetentionPolicy_ne_tooLow (d : Data) (database : String)
    (rpi : RetentionPolicyInfo) (md : Bool) :
    d.CreateRetentionPolicy database rpi md ≠
      .error .retentionPolicyDurationTooLow := by
  unfold Data.CreateRetentionPolicy
  split
  · intro h
    injection h with h
    exact MetaErr.noConfusion h
  · split
    · split
      · intro h
        exact Except.noConfusion h
      · intro h
        injection h with h
        exact MetaErr.noConfusion h
    · intro h
      exact Except.noConfusion h

/-- The default-policy step of `CreateDatabaseWithRetentionPolicy` never
reports the duration floor error. -/
theorem cdwrpStep_ne_tooLow (name : String) (spec : RetentionPolicySpec)
    (db : DatabaseInfo) (d1 : Data) :
    LocalClient.cdwrpStep name spec db d1 ≠
      .error .retentionPolicyDurationTooLow := by
  unfold LocalClient.cdwrpStep
  split
  · exact Data.CreateRetentionPolicy_ne_tooLow _ _ _ _
  · split
    · intro h
      injection h with h
      exact MetaErr.noConfusion h
    · intro h
      exact Except.noConfusion h

/-- The modelled store-side `CreateDatabaseCommand` apply never reports
the duration floor error. -/
theorem applyCreateDatabaseCmd_ne_tooLow (d : Data) (name : String)
    (rp : Option RetentionPolicyInfo) :
    applyCreateDatabaseCmd d name rp ≠
      .error .retentionPolicyDurationTooLow := by
  unfold applyCreateDatabaseCmd
  cases rp with
  | none =>
    intro h
    exact Except.noConfusion h
  | some rpi => exact Data.CreateRetentionPolicy_ne_tooLow _ _ _ _

/-- The early return of the remote `CreateDatabaseWithRetentionPolicy`
never reports the duration floor error. -/
theorem remoteCdwrpEarly_ne_tooLow (d : Data) (name : String)
    (spec : RetentionPolicySpec) :
    remoteCdwrpEarly d name spec ≠
      some (.error .retentionPolicyDurationTooLow) := by
  unfold remoteCdwrpEarly
  split
  · split
    · split
      · split
        · intro h
          injection h with h
          injection h with h
          exact MetaErr.noConfusion h
        · intro h
          injection h with h
          exact Except.noConfusion h
      · intro h
        injection h with h
        injection h with h
        exact MetaErr.noConfusion h
    · intro h
      exact Option.noConfusion h
  · intro h
    exact Option.noConfusion h

/-- C6 (amended): `CreateRetentionPolicy` and
`CreateDatabaseWithRetentionPolicy` report `RetentionPolicyDurationTooLow`
exactly for a requested duration that is non-zero and under one hour — on
the local client, and on the remote client's
`CreateDatabaseWithRetentionPolicy`; the remote `CreateRetentionPolicy`
applies the check only when no policy of the requested name exists, and
otherwise returns the existing policy without error regardless of the
requested duration. -/
theorem c6_duration_floor :
    (∀ (c : LocalClient) (database : String) (spec : RetentionPolicySpec)
        (md : Bool),
      (c.createRetentionPolicy database spec md).1 =
          .error .retentionPolicyDurationTooLow ↔
        ∃ v, spec.duration = some v ∧ v ≠ 0 ∧ v < MinRetentionPolicyDuration) ∧
    (∀ (c : LocalClient) (name : String) (spec : RetentionPolicySpec),
      (c.createDatabaseWithRetentionPolicy name spec).1 =
          .error .retentionPolicyDurationTooLow ↔
        ∃ v, spec.duration = some v ∧ v ≠ 0 ∧ v < MinRetentionPolicyDuration) ∧
    (∀ (d : Data) (database : String) (spec : RetentionPolicySpec) (md : Bool),
      (d.rpLookup database spec.name = none →
        ((remoteCreateRetentionPolicy d database spec md).1 =
            .error .retentionPolicyDurationTooLow ↔
          ∃ v, spec.duration = some v ∧ v ≠ 0 ∧ v < MinRetentionPolicyDuration)) ∧
      (∀ rp, d.rpLookup database spec.name = some rp →
        (remoteCreateRetentionPolicy d database spec md).1 = .ok (some rp))) ∧
    (∀ (d : Data) (name : String) (spec : RetentionPolicySpec),
      (remoteCreateDatabaseWithRP d name spec).1 =
          .error .retentionPolicyDurationTooLow ↔
        ∃ v, spec.duration = some v ∧ v ≠ 0 ∧ v < MinRetentionPolicyDuration) := by
  refine ⟨?_, ?_, ?_, ?_⟩
  · intro c database spec md
    rw [← durationTooLow_iff]
    unfold LocalClient.createRetentionPolicy
    by_cases hfloor : durationTooLow spec = true
    · rw [if_pos hfloor]
      exact ⟨fun _ => hfloor, fun _ => rfl⟩
    · rw [if_neg hfloor]
      refine ⟨fun hres => ?_, fun hfl => absurd hfl hfloor⟩
      revert hres
      split
      · rename_i e herr
        intro hres
        injection hres with hres
        rw [hres] at herr
        exact absurd herr (Data.CreateRetentionPolicy_ne_tooLow _ _ _ _)
      · intro hres
        exact Except.noConfusion hres
  · intro c name spec
    rw [← durationTooLow_iff]
    unfold LocalClient.createDatabaseWithRetentionPolicy
    by_cases hfloor : durationTooLow spec = true
    · rw [if_pos hfloor]
      exact ⟨fun _ => hfloor, fun _ => rfl⟩
    · rw [if_neg hfloor]
      refine ⟨fun hres => ?_, fun hfl => absurd hfl hfloor⟩
      revert hres
      split
      · intro hres
        injection hres with hres
        exact MetaErr.noConfusion hres
      · split
        · rename_i e herr
          intro hres
          injection hres with hres
          rw [hres] at herr
          exact absurd herr (cdwrpStep_ne_tooLow _ _ _ _)
        · split
          · intro hres
            injection hres with hres
            exact MetaErr.noConfusion hres
          · intro hres
            exact Except.noConfusion hres
  · intro d database spec md
    constructor
    · intro hnone
      rw [← durationTooLow_iff]
      unfold remoteCreateRetentionPolicy
      rw [hnone]
      dsimp only
      by_cases hfloor : durationTooLow spec = true
      · rw [if_pos hfloor]
        exact ⟨fun _ => hfloor, fun _ => rfl⟩
      · rw [if_neg hfloor]
        refine ⟨fun hres => ?_, fun hfl => absurd hfl hfloor⟩
        revert hres
        split
        · rename_i e herr
          intro hres
          injection hres with hres
          rw [hres] at herr
          exact absurd herr (Data.CreateRetentionPolicy_ne_tooLow _ _ _ _)
        · intro hres
          exact Except.noConfusion hres
    · intro rp hsome
      unfold remoteCreateRetentionPolicy
      rw [hsome]
  · intro d name spec
    rw [← durationTooLow_iff]
    unfold remoteCreateDatabaseWithRP
    by_cases hfloor : durationTooLow spec = true
    · rw [if_pos hfloor]
      exact ⟨fun _ => hfloor, fun _ => rfl⟩
    · rw [if_neg hfloor]
      refine ⟨fun hres => ?_, fun hfl => absurd hfl hfloor⟩
      revert hres
      split
      · rename_i r hearly
        intro hres
        have hr2 : r = .error .retentionPolicyDurationTooLow := hres
        rw [hr2] at hearly
        exact absurd hearly (remoteCdwrpEarly_ne_tooLow d name spec)
      · split
        · rename_i e herr
          intro hres
          injection hres with hres
          rw [hres] at herr
          exact absurd herr (applyCreateDatabaseCmd_ne_tooLow _ _ _)
        · intro hres
          exact Except.noConfusion hres

/-- Fixture: a document holding database `"db0"` with policy `"rp1"`. -/
def dbWithRp1 : Data :=
  { clusterID := 1, index := 1, maxShardGroupID := 0
    databases :=
      [{ name := "db0", defaultRetentionPolicy := "rp1"
         retentionPolicies :=
           [{ name := "rp1", duration := 0, replicaN := 1
              shardGroupDuration := 100, shardGroups := [] }] }]
    users := [] }

/-- Fixture: a request for `"rp1"` with a 59-minute duration. -/
def spec59m : RetentionPolicySpec :=
  { name := "rp1", duration := some (59 * 60 * 1000000000)
    replicaN := some 1, shardGroupDuration := none }

/-- C6 counterexample: on the remote client, `CreateRetentionPolicy` with
a 59-minute duration returns the existing policy without error, because
the existence check precedes the duration floor check. -/
theorem c6_counterexample :
    (remoteCreateRetentionPolicy dbWithRp1 "db0" spec59m false).1 =
        .ok (some { name := "rp1", duration := 0, replicaN := 1
                    shardGroupDuration := 100, shardGroups := [] }) ∧
      durationTooLow spec59m = true := by
  exact ⟨rfl, rfl⟩

/-- Witness for C6 (amended): the local client rejects the 59-minute
request with the duration floor error. -/
theorem c6_duration_floor_witness :
    (freshClient.createRetentionPolicy "db0" spec59m false).1 =
      .error .retentionPolicyDurationTooLow := by
  refine (c6_duration_floor.1 freshClient "db0" spec59m false).mpr ?_
  exact ⟨59 * 60 * 1000000000, rfl, by decide, by decide⟩

/-! ## C5 — shard-group precreation -/

/-- Projection of a shard group to its observable time data (ids, which
depend on allocation order, are dropped). -/
def sgProj (g : ShardGroupInfo) : Int × Int × Option Int :=
  (g.startTime, g.endTime, g.deletedAt)

/-- Projection of a retention policy: name and projected groups. -/
def rpProj (rp : RetentionPolicyInfo) :
    String × List (Int × Int × Option Int) :=
  (rp.name, rp.shardGroups.map sgProj)

/-- Projection of a database: name and projected policies. -/
def dbProj (db : DatabaseInfo) :
    String × List (String × List (Int × Int × Option Int)) :=
  (db.name, db.retentionPolicies.map rpProj)

/-- The exact condition under which one precreation step creates a group:
the last listed group is live, its end lies strictly between the bounds,
no live group already covers the successor instant, and the successor's
aligned bucket overlaps no live group. -/
def precreateCond (lo hi : Int) (rp : RetentionPolicyInfo) : Bool :=
  match rp.shardGroups.getLast? with
  | none => false
  | some g =>
    !g.deleted && decide (g.endTime < hi) && decide (lo < g.endTime)
      && !(rp.shardGroupByTimestamp (g.endTime + 1)).isSome
      && !(rp.shardGroups.any (fun g0 => !g0.deleted &&
            decide (g0.startTime <
                truncateTime (g.endTime + 1) rp.shardGroupDuration +
                  rp.shardGroupDuration ∧
              truncateTime (g.endTime + 1) rp.shardGroupDuration <
                g0.endTime)))

/-- The projection of the group a precreation step would append: the
aligned bucket containing the successor instant. -/
def precreatedProj (rp : RetentionPolicyInfo) :
    List (Int × Int × Option Int) :=
  match rp.shardGroups.getLast? with
  | none => []
  | some g =>
    [(truncateTime (g.endTime + 1) rp.shardGroupDuration,
      truncateTime (g.endTime + 1) rp.shardGroupDuration +
        rp.shardGroupDuration, none)]

/-- Expected projection of a retention policy after one precreation pass. -/
def rpProjExpected (lo hi : Int) (rp : RetentionPolicyInfo) :
    String × List (Int × Int × Option Int) :=
  (rp.name, rp.shardGroups.map sgProj ++
    if precreateCond lo hi rp then precreatedProj rp else [])

/-- Expected projection of a database after one precreation pass. -/
def dbProjExpected (lo hi : Int) (db : DatabaseInfo) :
    String × List (String × List (Int × Int × Option Int)) :=
  (db.name, db.retentionPolicies.map (rpProjExpected lo hi))

/-- `find?` over a context whose prefix contains no match. -/
theorem find?_append_first {α} (p : α → Bool) (pre post : List α) (x : α)
    (hpre : ∀ y ∈ pre, p y = false) (hx : p x = true) :
    (pre ++ x :: post).find? p = some x := by
  induction pre with
  | nil =>
    rw [List.nil_append]
    exact List.find?_cons_of_pos post hx
  | cons a pre ih =>
    rw [List.cons_append, List.find?_cons_of_neg]
    · exact ih (fun y hy => hpre y (List.mem_cons_of_mem a hy))
    · rw [hpre a (List.mem_cons_self a pre)]
      exact Bool.false_ne_true

/-- `updateFirst` over a context whose prefix contains no match. -/
theorem updateFirst_append_first {α} (p : α → Bool) (f : α → α)
    (pre post : List α) (x : α)
    (hpre : ∀ y ∈ pre, p y = false) (hx : p x = true) :
    updateFirst p f (pre ++ x :: post) = pre ++ f x :: post := by
  induction pre with
  | nil =>
    rw [List.nil_append, List.nil_append]
    unfold updateFirst
    rw [if_pos hx]
  | cons a pre ih =>
    rw [List.cons_append, List.cons_append]
    unfold updateFirst
    rw [if_neg]
    · rw [ih (fun y hy => hpre y (List.mem_cons_of_mem a hy))]
    · rw [hpre a (List.mem_cons_self a pre)]
      exact Bool.false_ne_true

/-- `Data.CreateShardGroup` in solved form, once the database and
retention policy have been located. -/
theorem CreateShardGroup_eq (d : Data) (db : DatabaseInfo)
    (rp : RetentionPolicyInfo) (t : Int)
    (hDb : d.Database db.name = some db)
    (hRp : db.RetentionPolicy rp.name = some rp) :
    d.CreateShardGroup db.name rp.name t =
      if rp.shardGroups.any (fun g0 => !g0.deleted &&
          decide (g0.startTime <
              truncateTime t rp.shardGroupDuration + rp.shardGroupDuration ∧
            truncateTime t rp.shardGroupDuration < g0.endTime)) then
        .error .shardGroupExists
      else
        .ok (createdShardGroupData d db.name rp.name
          (truncateTime t rp.shardGroupDuration)
          (truncateTime t rp.shardGroupDuration + rp.shardGroupDuration)) := by
  unfold Data.CreateShardGroup
  rw [hDb]
  dsimp only
  rw [hRp]

/-- The databases list after a successful group creation: only the
targeted policy of the targeted database changes, by appending the new
group. -/
theorem createdShardGroupData_databases (d : Data)
    (pre post : List DatabaseInfo) (db : DatabaseInfo)
    (rpsPre rpsPost : List RetentionPolicyInfo) (rp : RetentionPolicyInfo)
    (s e : Int)
    (hd : d.databases = pre ++ db :: post)
    (hpre : ∀ y ∈ pre, (y.name == db.name) = false)
    (hrps : db.retentionPolicies = rpsPre ++ rp :: rpsPost)
    (hrpsPre : ∀ y ∈ rpsPre, (y.name == rp.name) = false) :
    (createdShardGroupData d db.name rp.name s e).databases =
      pre ++ { db with retentionPolicies := rpsPre ++
        { rp with shardGroups :=
            rp.shardGroups ++ [⟨d.maxShardGroupID + 1, s, e, none⟩] } ::
          rpsPost } :: post := by
  unfold createdShardGroupData
  dsimp only
  rw [hd, updateFirst_append_first _ _ pre post db hpre (by simp)]
  unfold addShardGroupToDB
  rw [hrps, updateFirst_append_first _ _ rpsPre rpsPost rp hrpsPre (by simp)]
  unfold addShardGroupToRP
  rfl

/-- After a successful group creation the targeted policy is found with
the new group appended. -/
theorem createdShardGroupData_rpLookup (d : Data)
    (pre post : List DatabaseInfo) (db : DatabaseInfo)
    (rpsPre rpsPost : List RetentionPolicyInfo) (rp : RetentionPolicyInfo)
    (s e : Int)
    (hd : d.databases = pre ++ db :: post)
    (hpre : ∀ y ∈ pre, (y.name == db.name) = false)
    (hrps : db.retentionPolicies = rpsPre ++ rp :: rpsPost)
    (hrpsPre : ∀ y ∈ rpsPre, (y.name == rp.name) = false) :
    (createdShardGroupData d db.name rp.name s e).rpLookup db.name rp.name =
      some { rp with shardGroups :=
        rp.shardGroups ++ [⟨d.maxShardGroupID + 1, s, e, none⟩] } := by
  unfold Data.rpLookup Data.Database
  rw [createdShardGroupData_databases d pre post db rpsPre rpsPost rp s e hd
    hpre hrps hrpsPre]
  rw [find?_append_first _ pre post _ hpre (by simp)]
  rw [Option.some_bind]
  unfold DatabaseInfo.RetentionPolicy
  dsimp only
  rw [find?_append_first _ rpsPre rpsPost _ hrpsPre (by simp)]

/-- One precreation step, local and remote, under a located decomposition
of the document: the step replaces exactly the targeted retention policy
by a policy whose projection is the expected one, and leaves every other
database and policy untouched. -/
theorem precreate_step (lo hi : Int) (d : Data) (pre post : List DatabaseInfo)
    (db : DatabaseInfo) (rpsPre rpsPost : List RetentionPolicyInfo)
    (rp : RetentionPolicyInfo) (dbName : String)
    (hname : db.name = dbName)
    (hd : d.databases = pre ++ db :: post)
    (hpre : ∀ y ∈ pre, (y.name == dbName) = false)
    (hrps : db.retentionPolicies = rpsPre ++ rp :: rpsPost)
    (hrpsPre : ∀ y ∈ rpsPre, (y.name == rp.name) = false) :
    ∃ rp2 : RetentionPolicyInfo,
      rpProj rp2 = rpProjExpected lo hi rp ∧
      (precreateOneRP lo hi dbName rp d).1.databases =
        pre ++ { db with retentionPolicies := rpsPre ++ rp2 :: rpsPost } :: post ∧
      (remotePrecreateOneRP lo hi dbName rp d).databases =
        pre ++ { db with retentionPolicies := rpsPre ++ rp2 :: rpsPost } :: post := by
  subst hname
  have hDb : d.Database db.name = some db := by
    unfold Data.Database
    rw [hd]
    exact find?_append_first _ pre post db hpre (by simp)
  have hRp : db.RetentionPolicy rp.name = some rp := by
    unfold DatabaseInfo.RetentionPolicy
    rw [hrps]
    exact find?_append_first _ rpsPre rpsPost rp hrpsPre (by simp)
  have hTs : ∀ t, d.ShardGroupByTimestamp db.name rp.name t =
      rp.shardGroupByTimestamp t := by
    intro t
    unfold Data.ShardGroupByTimestamp Data.rpLookup
    rw [hDb, Option.some_bind, hRp, Option.some_bind]
  have hsame : d.databases =
      pre ++ { db with retentionPolicies := rpsPre ++ rp :: rpsPost } :: post := by
    rw [hd, ← hrps]
  cases hlast : rp.shardGroups.getLast? with
  | none =>
    refine ⟨rp, ?_, ?_, ?_⟩
    · unfold rpProj rpProjExpected precreateCond
      rw [hlast]
      simp
    · unfold precreateOneRP
      rw [hlast]
      exact hsame
    · unfold remotePrecreateOneRP
      rw [hlast]
      exact hsame
  | some g =>
    by_cases hc1 : (!g.deleted && decide (g.endTime < hi) &&
        decide (lo < g.endTime)) = true
    · by_cases hts2 : (rp.shardGroupByTimestamp (g.endTime + 1)).isSome = true
      · refine ⟨rp, ?_, ?_, ?_⟩
        · unfold rpProj rpProjExpected precreateCond
          rw [hlast]
          dsimp only
          rw [hc1, hts2]
          simp
        · unfold precreateOneRP
          rw [hlast]
          dsimp only
          rw [if_pos hc1, hTs (g.endTime + 1), if_pos hts2]
          exact hsame
        · unfold remotePrecreateOneRP
          rw [hlast]
          dsimp only
          rw [if_pos hc1]
          unfold remoteCreateShardGroupApply
          rw [hTs (g.endTime + 1), if_pos hts2]
          exact hsame
      · have hts2' : (rp.shardGroupByTimestamp (g.endTime + 1)).isSome = false := by
          simpa using hts2
        by_cases hov : (rp.shardGroups.any (fun g0 => !g0.deleted &&
            decide (g0.startTime <
                truncateTime (g.endTime + 1) rp.shardGroupDuration +
                  rp.shardGroupDuration ∧
              truncateTime (g.endTime + 1) rp.shardGroupDuration <
                g0.endTime))) = true
        · refine ⟨rp, ?_, ?_, ?_⟩
          · unfold rpProj rpProjExpected precreateCond
            rw [hlast]
            dsimp only
            rw [hc1, hts2', hov]
            simp
          · have hhelp : createShardGroupHelper d db.name rp.name (g.endTime + 1) =
                .error .shardGroupExists := by
              unfold createShardGroupHelper
              rw [hTs (g.endTime + 1),
                if_neg (by rw [hts2']; exact Bool.false_ne_true),
                CreateShardGroup_eq d db rp _ hDb hRp, if_pos hov]
            unfold precreateOneRP
            rw [hlast]
            dsimp only
            rw [if_pos hc1, hTs (g.endTime + 1),
              if_neg (by rw [hts2']; exact Bool.false_ne_true), hhelp]
            exact hsame
          · unfold remotePrecreateOneRP
            rw [hlast]
            dsimp only
            rw [if_pos hc1]
            unfold remoteCreateShardGroupApply
            rw [hTs (g.endTime + 1),
              if_neg (by rw [hts2']; exact Bool.false_ne_true),
              CreateShardGroup_eq d db rp _ hDb hRp, if_pos hov]
            exact hsame
        · have hov' : (rp.shardGroups.any (fun g0 => !g0.deleted &&
              decide (g0.startTime <
                  truncateTime (g.endTime + 1) rp.shardGroupDuration +
                    rp.shardGroupDuration ∧
                truncateTime (g.endTime + 1) rp.shardGroupDuration <
                  g0.endTime))) = false := by
            simpa using hov
          have hcond : precreateCond lo hi rp = true := by
            unfold precreateCond
            rw [hlast]
            dsimp only
            rw [hc1, hts2', hov']
            rfl
          refine ⟨{ rp with shardGroups := rp.shardGroups ++
              [⟨d.maxShardGroupID + 1,
                truncateTime (g.endTime + 1) rp.shardGroupDuration,
                truncateTime (g.endTime + 1) rp.shardGroupDuration +
                  rp.shardGroupDuration, none⟩] }, ?_, ?_, ?_⟩
          · unfold rpProj rpProjExpected precreatedProj
            rw [hcond, hlast]
            dsimp only
            simp [sgProj]
          · have hhelp : createShardGroupHelper d db.name rp.name (g.endTime + 1) =
                .ok (createdShardGroupData d db.name rp.name
                  (truncateTime (g.endTime + 1) rp.shardGroupDuration)
                  (truncateTime (g.endTime + 1) rp.shardGroupDuration +
                    rp.shardGroupDuration),
                  ({ rp with shardGroups := rp.shardGroups ++
                    [⟨d.maxShardGroupID + 1,
                      truncateTime (g.endTime + 1) rp.shardGroupDuration,
                      truncateTime (g.endTime + 1) rp.shardGroupDuration +
                        rp.shardGroupDuration, none⟩] } :
                    RetentionPolicyInfo).shardGroupByTimestamp (g.endTime + 1)) := by
              unfold createShardGroupHelper
              rw [hTs (g.endTime + 1),
                if_neg (by rw [hts2']; exact Bool.false_ne_true),
                CreateShardGroup_eq d db rp _ hDb hRp,
                if_neg (by rw [hov']; exact Bool.false_ne_true)]
              dsimp only
              rw [createdShardGroupData_rpLookup d pre post db rpsPre rpsPost
                rp _ _ hd hpre hrps hrpsPre]
            unfold precreateOneRP
            rw [hlast]
            dsimp only
            rw [if_pos hc1, hTs (g.endTime + 1),
              if_neg (by rw [hts2']; exact Bool.false_ne_true), hhelp]
            exact createdShardGroupData_databases d pre post db rpsPre rpsPost
              rp _ _ hd hpre hrps hrpsPre
          · unfold remotePrecreateOneRP
            rw [hlast]
            dsimp only
            rw [if_pos hc1]
            unfold remoteCreateShardGroupApply
            rw [hTs (g.endTime + 1),
              if_neg (by rw [hts2']; exact Bool.false_ne_true),
              CreateShardGroup_eq d db rp _ hDb hRp,
              if_neg (by rw [hov']; exact Bool.false_ne_true)]
            exact createdShardGroupData_databases d pre post db rpsPre rpsPost
              rp _ _ hd hpre hrps hrpsPre
    · refine ⟨rp, ?_, ?_, ?_⟩
      · have hc1' : (!g.deleted && decide (g.endTime < hi) &&
            decide (lo < g.endTime)) = false := by
          simpa using hc1
        unfold rpProj rpProjExpected precreateCond
        rw [hlast]
        dsimp only
        rw [hc1']
        simp
      · unfold precreateOneRP
        rw [hlast]
        dsimp only
        rw [if_neg hc1]
        exact hsame
      · unfold remotePrecreateOneRP
        rw [hlast]
        dsimp only
        rw [if_neg hc1]
        exact hsame

/-- The local inner loop processes every retention policy of the targeted
database, each with its original value, and only that database changes. -/
theorem precreateDB_fold (lo hi : Int) (dbName : String) :
    ∀ (rpsTodo rpsDone : List RetentionPolicyInfo) (d : Data) (b : Bool)
      (pre post : List DatabaseInfo) (dbCur : DatabaseInfo),
      d.databases = pre ++ dbCur :: post →
      dbCur.name = dbName →
      (∀ y ∈ pre, (y.name == dbName) = false) →
      dbCur.retentionPolicies = rpsDone ++ rpsTodo →
      (∀ y ∈ rpsDone, ∀ z ∈ rpsTodo, (y.name == z.name) = false) →
      (rpsTodo.map (fun x => x.name)).Nodup →
      ∃ rpsDone2 : List RetentionPolicyInfo,
        (precreateDB lo hi dbName rpsTodo (d, b)).1.databases =
          pre ++ { dbCur with retentionPolicies := rpsDone ++ rpsDone2 } :: post ∧
        rpsDone2.map rpProj = rpsTodo.map (rpProjExpected lo hi) := by
  intro rpsTodo
  induction rpsTodo with
  | nil =>
    intro rpsDone d b pre post dbCur hd hname hpre hrps _ _
    refine ⟨[], ?_, rfl⟩
    show d.databases = _
    rw [List.append_nil] at hrps
    rw [hd, List.append_nil, ← hrps]
  | cons rp rps ih =>
    intro rpsDone d b pre post dbCur hd hname hpre hrps hsep hnodup
    have hrpsPre : ∀ y ∈ rpsDone, (y.name == rp.name) = false :=
      fun y hy => hsep y hy rp (List.mem_cons_self rp rps)
    obtain ⟨rp2, hproj, hlocal, _⟩ :=
      precreate_step lo hi d pre post dbCur rpsDone rps rp dbName hname hd
        hpre hrps hrpsPre
    have hname2 : rp2.name = rp.name := congrArg Prod.fst hproj
    simp only [List.map_cons, List.nodup_cons] at hnodup
    have hsep2 : ∀ y ∈ rpsDone ++ [rp2], ∀ z ∈ rps, (y.name == z.name) = false := by
      intro y hy z hz
      rcases List.mem_append.mp hy with hy1 | hy2
      · exact hsep y hy1 z (List.mem_cons_of_mem rp hz)
      · have hye : y = rp2 := by simpa using hy2
        subst hye
        rw [hname2]
        refine beq_eq_false_iff_ne.mpr (fun he => ?_)
        exact hnodup.1 (he ▸ List.mem_map_of_mem (fun x => x.name) hz)
    obtain ⟨rpsDone2, hfold, hproj2⟩ := ih (rpsDone ++ [rp2])
      (precreateOneRP lo hi dbName rp d).1
      (b || (precreateOneRP lo hi dbName rp d).2) pre post
      { dbCur with retentionPolicies := rpsDone ++ rp2 :: rps }
      hlocal hname hpre (by simp) hsep2 hnodup.2
    refine ⟨rp2 :: rpsDone2, ?_, ?_⟩
    · show (precreateDB lo hi dbName rps
        ((precreateOneRP lo hi dbName rp d).1,
          b || (precreateOneRP lo hi dbName rp d).2)).1.databases = _
      rw [hfold, List.append_assoc]
      rfl
    · rw [List.map_cons, List.map_cons, hproj, hproj2]

/-- The remote inner loop behaves identically to the local one on the
targeted database. -/
theorem remotePrecreateDB_fold (lo hi : Int) (dbName : String) :
    ∀ (rpsTodo rpsDone : List RetentionPolicyInfo) (d : Data)
      (pre post : List DatabaseInfo) (dbCur : DatabaseInfo),
      d.databases = pre ++ dbCur :: post →
      dbCur.name = dbName →
      (∀ y ∈ pre, (y.name == dbName) = false) →
      dbCur.retentionPolicies = rpsDone ++ rpsTodo →
      (∀ y ∈ rpsDone, ∀ z ∈ rpsTodo, (y.name == z.name) = false) →
      (rpsTodo.map (fun x => x.name)).Nodup →
      ∃ rpsDone2 : List RetentionPolicyInfo,
        (remotePrecreateDB lo hi dbName rpsTodo d).databases =
          pre ++ { dbCur with retentionPolicies := rpsDone ++ rpsDone2 } :: post ∧
        rpsDone2.map rpProj = rpsTodo.map (rpProjExpected lo hi) := by
  intro rpsTodo
  induction rpsTodo with
  | nil =>
    intro rpsDone d pre post dbCur hd hname hpre hrps _ _
    refine ⟨[], ?_, rfl⟩
    show d.databases = _
    rw [List.append_nil] at hrps
    rw [hd, List.append_nil, ← hrps]
  | cons rp rps ih =>
    intro rpsDone d pre post dbCur hd hname hpre hrps hsep hnodup
    have hrpsPre : ∀ y ∈ rpsDone, (y.name == rp.name) = false :=
      fun y hy => hsep y hy rp (List.mem_cons_self rp rps)
    obtain ⟨rp2, hproj, _, hremote⟩ :=
      precreate_step lo hi d pre post dbCur rpsDone rps rp dbName hname hd
        hpre hrps hrpsPre
    have hname2 : rp2.name = rp.name := congrArg Prod.fst hproj
    simp only [List.map_cons, List.nodup_cons] at hnodup
    have hsep2 : ∀ y ∈ rpsDone ++ [rp2], ∀ z ∈ rps, (y.name == z.name) = false := by
      intro y hy z hz
      rcases List.mem_append.mp hy with hy1 | hy2
      · exact hsep y hy1 z (List.mem_cons_of_mem rp hz)
      · have hye : y = rp2 := by simpa using hy2
        subst hye
        rw [hname2]
        refine beq_eq_false_iff_ne.mpr (fun he => ?_)
        exact hnodup.1 (he ▸ List.mem_map_of_mem (fun x => x.name) hz)
    obtain ⟨rpsDone2, hfold, hproj2⟩ := ih (rpsDone ++ [rp2])
      (remotePrecreateOneRP lo hi dbName rp d) pre post
      { dbCur with retentionPolicies := rpsDone ++ rp2 :: rps }
      hremote hname hpre (by simp) hsep2 hnodup.2
    refine ⟨rp2 :: rpsDone2, ?_, ?_⟩
    · show (remotePrecreateDB lo hi dbName rps
        (remotePrecreateOneRP lo hi dbName rp d)).databases = _
      rw [hfold, List.append_assoc]
      rfl
    · rw [List.map_cons, List.map_cons, hproj, hproj2]

/-- The outer loop of `Client.PrecreateShardGroups` processes every
database, each with its original value. -/
theorem precreateAll_fold (lo hi : Int) :
    ∀ (dbsTodo dbsDone : List DatabaseInfo) (d : Data) (b : Bool),
      d.databases = dbsDone ++ dbsTodo →
      (∀ y ∈ dbsDone, ∀ z ∈ dbsTodo, (y.name == z.name) = false) →
      (dbsTodo.map (fun x => x.name)).Nodup →
      (∀ db ∈ dbsTodo, (db.retentionPolicies.map (fun x => x.name)).Nodup) →
      ∃ dbsDone2 : List DatabaseInfo,
        (dbsTodo.foldl
            (fun a db2 => precreateDB lo hi db2.name db2.retentionPolicies a)
            (d, b)).1.databases = dbsDone ++ dbsDone2 ∧
        dbsDone2.map dbProj = dbsTodo.map (dbProjExpected lo hi) := by
  intro dbsTodo
  induction dbsTodo with
  | nil =>
    intro dbsDone d b hd _ _ _
    exact ⟨[], hd, rfl⟩
  | cons db dbs ih =>
    intro dbsDone d b hd hsep hnodup hrpAll
    have hpre : ∀ y ∈ dbsDone, (y.name == db.name) = false :=
      fun y hy => hsep y hy db (List.mem_cons_self db dbs)
    obtain ⟨rpsDone2, hfold1, hproj1⟩ :=
      precreateDB_fold lo hi db.name db.retentionPolicies [] d b dbsDone dbs
        db hd rfl hpre rfl
        (fun y hy => absurd hy (List.not_mem_nil y))
        (hrpAll db (List.mem_cons_self db dbs))
    simp only [List.map_cons, List.nodup_cons] at hnodup
    have hsep2 : ∀ y ∈ dbsDone ++ [{ db with retentionPolicies := rpsDone2 }],
        ∀ z ∈ dbs, (y.name == z.name) = false := by
      intro y hy z hz
      rcases List.mem_append.mp hy with hy1 | hy2
      · exact hsep y hy1 z (List.mem_cons_of_mem db hz)
      · have hye : y = { db with retentionPolicies := rpsDone2 } := by
          simpa using hy2
        subst hye
        show (db.name == z.name) = false
        refine beq_eq_false_iff_ne.mpr (fun he => ?_)
        exact hnodup.1 (he ▸ List.mem_map_of_mem (fun x => x.name) hz)
    have hfold1a : (precreateDB lo hi db.name db.retentionPolicies (d, b)).1.databases =
        (dbsDone ++ [{ db with retentionPolicies := rpsDone2 }]) ++ dbs := by
      rw [hfold1, List.append_assoc]
      rfl
    obtain ⟨dbsDone2, hfold2, hproj2⟩ := ih
      (dbsDone ++ [{ db with retentionPolicies := rpsDone2 }])
      (precreateDB lo hi db.name db.retentionPolicies (d, b)).1
      (precreateDB lo hi db.name db.retentionPolicies (d, b)).2
      hfold1a hsep2 hnodup.2
      (fun x hx => hrpAll x (List.mem_cons_of_mem db hx))
    refine ⟨{ db with retentionPolicies := rpsDone2 } :: dbsDone2, ?_, ?_⟩
    · show (dbs.foldl
          (fun a db2 => precreateDB lo hi db2.name db2.retentionPolicies a)
          (precreateDB lo hi db.name db.retentionPolicies (d, b))).1.databases = _
      rw [show (precreateDB lo hi db.name db.retentionPolicies (d, b)) =
        ((precreateDB lo hi db.name db.retentionPolicies (d, b)).1,
          (precreateDB lo hi db.name db.retentionPolicies (d, b)).2) from rfl]
      rw [hfold2, List.append_assoc]
      rfl
    · rw [List.map_cons, hproj2]
      show (db.name, rpsDone2.map rpProj) :: _ = _
      rw [hproj1]
      rfl

/-- C5 (amended): the local `PrecreateShardGroups` processes every
retention policy of every database — each policy's groups become exactly
the original groups plus the expected successor when the creation
condition holds — while the remote variant transforms only the first
database, leaving every other database untouched. -/
theorem c5_precreate_characterization (lo hi : Int) (d : Data)
    (hdb : (d.databases.map (fun x => x.name)).Nodup)
    (hrp : ∀ db ∈ d.databases,
      (db.retentionPolicies.map (fun x => x.name)).Nodup) :
    ((d.precreateAll lo hi).1.databases.map dbProj =
      d.databases.map (dbProjExpected lo hi)) ∧
    (∀ db rest, d.databases = db :: rest →
      (remotePrecreateData lo hi d).databases.map dbProj =
        dbProjExpected lo hi db :: rest.map dbProj) := by
  constructor
  · obtain ⟨dbsDone2, hfold, hproj⟩ :=
      precreateAll_fold lo hi d.databases [] d false rfl
        (fun y hy => absurd hy (List.not_mem_nil y)) hdb hrp
    show (d.databases.foldl
        (fun a db2 => precreateDB lo hi db2.name db2.retentionPolicies a)
        (d, false)).1.databases.map dbProj = _
    rw [hfold]
    show dbsDone2.map dbProj = _
    exact hproj
  · intro db rest hdbs
    have hmem : db ∈ d.databases := by
      rw [hdbs]
      exact List.mem_cons_self db rest
    obtain ⟨rpsDone2, hfold, hproj⟩ :=
      remotePrecreateDB_fold lo hi db.name db.retentionPolicies [] d [] rest
        db hdbs rfl (fun y hy => absurd hy (List.not_mem_nil y)) rfl
        (fun y hy => absurd hy (List.not_mem_nil y)) (hrp db hmem)
    unfold remotePrecreateData
    rw [hdbs]
    dsimp only
    rw [hfold]
    show dbProj { db with retentionPolicies := rpsDone2 } :: rest.map dbProj = _
    unfold dbProj dbProjExpected
    dsimp only
    rw [hproj]

/-- Fixture: two databases `"a"` and `"b"`, each with one policy whose
last group `[100, 200)` is live and ends inside `(150, 300)`. -/
def rpFixA : RetentionPolicyInfo :=
  { name := "rpa", duration := 0, replicaN := 1, shardGroupDuration := 100
    shardGroups := [⟨1, 100, 200, none⟩] }

/-- Fixture: the policy of database `"b"` (same shape as `rpFixA`). -/
def rpFixB : RetentionPolicyInfo :=
  { name := "rpb", duration := 0, replicaN := 1, shardGroupDuration := 100
    shardGroups := [⟨2, 100, 200, none⟩] }

/-- Fixture: the two-database document. -/
def twoDbDoc : Data :=
  { clusterID := 1, index := 1, maxShardGroupID := 10
    databases :=
      [{ name := "a", defaultRetentionPolicy := "rpa", retentionPolicies := [rpFixA] }
      ,{ name := "b", defaultRetentionPolicy := "rpb", retentionPolicies := [rpFixB] }]
    users := [] }

/-- C5 counterexample: database `"b"`'s policy satisfies the creation
condition, and the local pass creates its successor group, yet
`RemoteClient.PrecreateShardGroups` leaves it with a single group — the
remote variant does not iterate every database. -/
theorem c5_counterexample :
    precreateCond 150 300 rpFixB = true ∧
    (remotePrecreateData 150 300 twoDbDoc).databases.map (fun db =>
        db.retentionPolicies.map (fun rp => rp.shardGroups.length)) =
      [[2], [1]] ∧
    (twoDbDoc.precreateAll 150 300).1.databases.map (fun db =>
        db.retentionPolicies.map (fun rp => rp.shardGroups.length)) =
      [[2], [2]] := by
  exact ⟨by decide, by decide, by decide⟩

/-- Witness for C5 (amended): the characterization applied to the
two-database fixture. -/
theorem c5_precreate_characterization_witness :
    (twoDbDoc.precreateAll 150 300).1.databases.map dbProj =
      twoDbDoc.databases.map (dbProjExpected 150 300) := by
  exact (c5_precreate_characterization 150 300 twoDbDoc (by decide)
    (by decide)).1

end CnosMeta
